import Mathlib

/-!
Verification of the cpm configuration core (schema, semantic versions,
registry client, config adapter, global/local config managers, client
format adapters) against its natural-language specification.

The Python sources are shallowly embedded: Python dicts become ordered
association lists (insertion order preserved, first-match lookup, in-place
replacement on re-assignment, exactly the observable behaviour of CPython
dicts built by the embedded code), pydantic models become Lean structures,
`model.model_dump()` / `Model.model_validate` become total serializers into
an inductive `Json` type and partial deserializers out of it, and methods
that raise become `Except`-valued functions.
-/

deriving instance DecidableEq for Except

/-- JSON values, the common wire format of every persisted document in cpm. -/
inductive Json where
  | null
  | bool (b : Bool)
  | num (n : Int)
  | str (s : String)
  | arr (xs : List Json)
  | obj (kvs : List (String × Json))
deriving Repr

/-- Lookup of a key in a JSON object body (first match, like a Python dict
whose keys are unique). -/
def jlookup (k : String) : List (String × Json) → Option Json
  | [] => none
  | (k', v) :: rest => if k' = k then some v else jlookup k rest

/-- Ordered association list standing for a Python `dict` with the given
value type.  Insertion order is preserved, as CPython guarantees. -/
def PyDict (β : Type) : Type := List (String × β)

/-- Python `d.get(k)` / `d[k]`: first entry with the key. -/
def dGet {β : Type} (d : List (String × β)) (k : String) : Option β :=
  match d with
  | [] => none
  | (k', v) :: rest => if k' = k then some v else dGet rest k

/-- Python `d[k] = v`: replace the value of an existing key in place,
otherwise append the new pair at the end. -/
def dInsert {β : Type} (d : List (String × β)) (k : String) (v : β) : List (String × β) :=
  match d with
  | [] => [(k, v)]
  | (k', v') :: rest => if k' = k then (k', v) :: rest else (k', v') :: dInsert rest k v

/-- Python `del d[k]`: drop the (unique) entry with the key. -/
def dErase {β : Type} (d : List (String × β)) (k : String) : List (String × β) :=
  match d with
  | [] => []
  | (k', v') :: rest => if k' = k then rest else (k', v') :: dErase rest k

/-- In-place mutation of the value stored under a key (Python code that
mutates `d[k]` through the shared object reference). -/
def dUpdateVal {β : Type} (d : List (String × β)) (k : String) (f : β → β) : List (String × β) :=
  match d with
  | [] => []
  | (k', v') :: rest => if k' = k then (k', f v') :: rest else (k', v') :: dUpdateVal rest k f

/-- Python `d1.update(d2)`: assign every pair of `d2` into `d1` in order. -/
def dUpdate {β : Type} (d1 d2 : List (String × β)) : List (String × β) :=
  d2.foldl (fun acc kv => dInsert acc kv.1 kv.2) d1

/-- Python truthiness of an `Optional[str]`: `None` and `""` are falsy. -/
def pyTruthyOptStr (o : Option String) : Bool :=
  match o with
  | none => false
  | some s => s ≠ ""

/-- Python `a or b` for `a : Optional[str]`: `b` when `a` is `None` or empty. -/
def pyOrStr (o : Option String) (d : String) : String :=
  match o with
  | none => d
  | some s => if s = "" then d else s

/-- Python `str.split(sep)` for a one-character separator, on the character
list (keeps empty pieces, like `str.split` with an explicit separator). -/
def pySplitCh (c : Char) : List Char → List (List Char)
  | [] => [[]]
  | x :: xs =>
    let r := pySplitCh c xs
    if x = c then [] :: r
    else
      match r with
      | [] => [[x]]
      | y :: ys => (x :: y) :: ys

/-- Python `s.split(c)` for the one-character separators used by the code
(`.`, `-`, `+`, `/`). -/
def pySplit (s : String) (c : Char) : List String :=
  (pySplitCh c s.data).map (fun l => String.mk l)

/-- Decimal conversion of a nonempty all-digit string (`int(s)` on such
strings, also the behaviour of `str.toNat?`). -/
def digitsToNat (s : String) : Option Nat :=
  if s.length > 0 && s.data.all Char.isDigit then
    some (s.data.foldl (fun n c => n * 10 + (c.toNat - 48)) 0)
  else none

/-- ASCII lower-casing of one character (`str.lower` restricted to the ASCII
registry-type strings the adapter receives). -/
def pyLowerChar (c : Char) : Char :=
  if 'A' ≤ c ∧ c ≤ 'Z' then Char.ofNat (c.toNat + 32) else c

/-- Python `s.lower()`. -/
def pyLower (s : String) : String := String.mk (s.data.map pyLowerChar)

/-- Lexicographic code-point comparison of character lists (Python `<` on
strings). -/
def charListLt : List Char → List Char → Bool
  | [], [] => false
  | [], _ :: _ => true
  | _ :: _, [] => false
  | a :: as, b :: bs => if a < b then true else if b < a then false else charListLt as bs

/-- Python `a < b` on strings. -/
def pyStrLt (a b : String) : Bool := charListLt a.data b.data

/-! ## Schema (src/cpm/core/schema.py)

The pydantic models, embedded as Lean structures.  Field order follows the
declaration order in the source, which is also the `model_dump` emission
order.  `extra = "allow"` on `Input` is not modelled: the entities built by
the embedded code never carry extra fields. -/

/-- StdioTransport / StreamableHttpTransport / SseTransport, discriminated by
their literal `type` tag. -/
inductive Transport where
  | stdio
  | streamableHttp (url : String)
  | sse (url : String)
deriving DecidableEq, Repr

/-- The members of `MCPServerConfig.remotes`: `Union[StreamableHttpTransport,
SseTransport]` (no stdio). -/
inductive RemoteTransport where
  | streamableHttp (url : String)
  | sse (url : String)
deriving DecidableEq, Repr

/-- Input (base input configuration). -/
structure Input where
  description : Option String := none
  isRequired : Bool := false
  format : Option String := some "string"
  value : Option String := none
  isSecret : Bool := false
  default : Option String := none
  placeholder : Option String := none
  choices : Option (List String) := none
deriving DecidableEq, Repr

/-- KeyValueInput: an Input with variable substitution plus a `name`.
`variables : Optional[Dict[str, Input]]` is an ordered association list. -/
structure KeyValueInput where
  description : Option String := none
  isRequired : Bool := false
  format : Option String := some "string"
  value : Option String := none
  isSecret : Bool := false
  default : Option String := none
  placeholder : Option String := none
  choices : Option (List String) := none
  variables' : Option (List (String × Input)) := none
  name : String
deriving DecidableEq, Repr

/-- Argument (command-line argument descriptor). -/
structure Argument where
  description : Option String := none
  isRequired : Bool := false
  format : Option String := some "string"
  value : Option String := none
  isSecret : Bool := false
  default : Option String := none
  placeholder : Option String := none
  choices : Option (List String) := none
  variables' : Option (List (String × Input)) := none
  type : String
  name : Option String := none
  valueHint : Option String := none
  isRepeated : Bool := false
deriving DecidableEq, Repr

/-- Icon (server icon configuration). -/
structure Icon where
  src : String
  mimeType : Option String := none
  sizes : Option (List String) := none
  theme : Option String := none
deriving DecidableEq, Repr

/-- Repository (source code repository information). -/
structure Repository where
  url : String
  source : String
  id : Option String := none
  subfolder : Option String := none
deriving DecidableEq, Repr

/-- Package (package configuration for installation). -/
structure Package where
  registryType : String
  identifier : String
  version : Option String := none
  registryBaseUrl : Option String := none
  fileSha256 : Option String := none
  runtimeHint : Option String := none
  transport : Transport
  runtimeArguments : Option (List Argument) := none
  packageArguments : Option (List Argument) := none
  environmentVariables : Option (List KeyValueInput) := none
deriving DecidableEq, Repr

/-- Default of the `schema` field (aliased `$schema`) of MCPServerConfig. -/
def defaultSchemaUrl : String :=
  "https://static.modelcontextprotocol.io/schemas/2025-10-17/server.schema.json"

/-- MCPServerConfig: the registry-aligned server description. -/
structure MCPServerConfig where
  schema : String := defaultSchemaUrl
  name : String
  description : String
  version : String
  status : Option String := some "active"
  title : Option String := none
  websiteUrl : Option String := none
  repository : Option Repository := none
  icons : Option (List Icon) := none
  packages : Option (List Package) := none
  remotes : Option (List RemoteTransport) := none
deriving DecidableEq, Repr

/-- MCPServerConfig.validate_name: the name must contain a `/` and split into
exactly two parts (reverse-DNS `namespace/servername`). -/
def validName (s : String) : Bool :=
  if ¬ s.data.contains '/' then false
  else (pySplit s '/').length == 2

/-- Whether a transport is the stdio variant (`isinstance(t, StdioTransport)`). -/
def Transport.isStdio : Transport → Bool
  | .stdio => true
  | _ => false

/-- MCPServerConfig.has_stdio_option. -/
def MCPServerConfig.has_stdio_option (c : MCPServerConfig) : Bool :=
  (c.packages.getD []).any (fun p => p.transport.isStdio)

/-- CPMRuntimeConfig: cpm's internal runtime configuration. -/
structure CPMRuntimeConfig where
  name : String
  registry_name : String
  registry_url : Option String := none
  install_method : String
  command : Option String := none
  args : Option (List String) := some []
  url : Option String := none
  headers : Option (List (String × String)) := some []
  env : List (String × String) := []
  groups : List String := []
  original_config : Option MCPServerConfig := none
deriving DecidableEq, Repr

/-- CPMRuntimeConfig.add_group: append the tag unless already present. -/
def CPMRuntimeConfig.add_group (c : CPMRuntimeConfig) (group : String) : CPMRuntimeConfig :=
  if group ∈ c.groups then c else { c with groups := c.groups ++ [group] }

/-- CPMRuntimeConfig.remove_group: drop the first occurrence of the tag if
present (Python `list.remove`). -/
def CPMRuntimeConfig.remove_group (c : CPMRuntimeConfig) (group : String) : CPMRuntimeConfig :=
  if group ∈ c.groups then { c with groups := c.groups.erase group } else c

/-- CPMRuntimeConfig.has_group. -/
def CPMRuntimeConfig.has_group (c : CPMRuntimeConfig) (group : String) : Bool :=
  c.groups.contains group

/-- ServerManifest (project-level server manifest, schema.py). -/
structure ServerManifest where
  name : String
  version : String := "1.0.0"
  description : Option String := none
  servers : List (String × String) := []
  devServers : List (String × String) := []
  groups : List (String × List String) := []
  config : List (String × List (String × String)) := []
deriving DecidableEq, Repr

/-- ServerLockEntry (single server entry in the lockfile). -/
structure ServerLockEntry where
  resolved : String
  version : String
  registryMetadata : MCPServerConfig
  integrity : Option String := none
  timestamp : String
deriving DecidableEq, Repr

/-- ServerLockfile (server-lock.json). -/
structure ServerLockfile where
  lockfileVersion : Int := 1
  servers : List (String × ServerLockEntry) := []
deriving DecidableEq, Repr

/-- GroupMetadata (cpm group metadata).  The two timestamps default to
`datetime.now().isoformat()` at construction time; they are carried as plain
strings here and supplied explicitly by the embedded managers. -/
structure GroupMetadata where
  name : String
  description : Option String := none
  servers : List String := []
  created_at : String
  updated_at : String
deriving DecidableEq, Repr

/-- LocalManifest (project manifest `server.json`, local_config.py). -/
structure LocalManifest where
  name : String
  version : String := "1.0.0"
  servers : List (String × String) := []
  devServers : List (String × String) := []
  groups : List (String × List String) := []
  config : List (String × List (String × String)) := []
deriving DecidableEq, Repr

/-! ## Serialization (pydantic `model_dump` / `model_validate`)

`model_dump()` emits every declared field under its field name, `None` as
JSON null, in declaration order; `model_validate` reads fields by key,
filling defaults for absent keys and failing on missing required keys or
mistyped values, and runs the declared field validators.  The pair below
follows exactly that contract for the schema models. -/

/-- Read a JSON string. -/
def jStr : Json → Option String
  | .str s => some s
  | _ => none

/-- Read a JSON boolean. -/
def jBool : Json → Option Bool
  | .bool b => some b
  | _ => none

/-- Read a JSON integer. -/
def jInt : Json → Option Int
  | .num n => some n
  | _ => none

/-- Dump an optional value (`None` becomes JSON null). -/
def jOfOpt (f : α → Json) : Option α → Json
  | none => .null
  | some a => f a

/-- Read an optional value (null becomes `None`). -/
def jOptOf (p : Json → Option α) : Json → Option (Option α)
  | .null => some none
  | .bool b => (p (.bool b)).map some
  | .num n => (p (.num n)).map some
  | .str s => (p (.str s)).map some
  | .arr xs => (p (.arr xs)).map some
  | .obj kvs => (p (.obj kvs)).map some

/-- Read every element of a JSON array body, failing if any element fails. -/
def parseList (p : Json → Option α) : List Json → Option (List α)
  | [] => some []
  | j :: rest => do
    let a ← p j
    let as ← parseList p rest
    pure (a :: as)

/-- Read a JSON array as a list. -/
def jList (p : Json → Option α) : Json → Option (List α)
  | .arr xs => parseList p xs
  | _ => none

/-- Dump a list as a JSON array. -/
def jOfList (f : α → Json) (xs : List α) : Json := .arr (xs.map f)

/-- Read every value of a JSON object body, keeping keys and order. -/
def parsePairs (p : Json → Option α) : List (String × Json) → Option (List (String × α))
  | [] => some []
  | (k, j) :: rest => do
    let a ← p j
    let as ← parsePairs p rest
    pure ((k, a) :: as)

/-- Read a JSON object as a string-keyed dict. -/
def jPairs (p : Json → Option α) : Json → Option (List (String × α))
  | .obj kvs => parsePairs p kvs
  | _ => none

/-- Dump a string-keyed dict as a JSON object. -/
def jOfPairs (f : α → Json) (d : List (String × α)) : Json :=
  .obj (d.map (fun kv => (kv.1, f kv.2)))

/-- Read a required model field. -/
def reqField (kvs : List (String × Json)) (k : String) (p : Json → Option α) : Option α :=
  (jlookup k kvs).bind p

/-- Read a model field with a default for an absent key. -/
def optField (kvs : List (String × Json)) (k : String) (p : Json → Option α) (d : α) : Option α :=
  match jlookup k kvs with
  | none => some d
  | some j => p j

/-- Transport.model_dump. -/
def Transport.model_dump : Transport → Json
  | .stdio => .obj [("type", .str "stdio")]
  | .streamableHttp url => .obj [("type", .str "streamable-http"), ("url", .str url)]
  | .sse url => .obj [("type", .str "sse"), ("url", .str url)]

/-- Transport.model_validate: discriminate on the literal `type` tag, as
pydantic does for this tagged union. -/
def Transport.model_validate (j : Json) : Option Transport :=
  match j with
  | .obj kvs => do
    let t ← reqField kvs "type" jStr
    if t = "stdio" then pure Transport.stdio
    else if t = "streamable-http" then do
      let url ← reqField kvs "url" jStr
      pure (Transport.streamableHttp url)
    else if t = "sse" then do
      let url ← reqField kvs "url" jStr
      pure (Transport.sse url)
    else none
  | _ => none

/-- RemoteTransport.model_dump. -/
def RemoteTransport.model_dump : RemoteTransport → Json
  | .streamableHttp url => .obj [("type", .str "streamable-http"), ("url", .str url)]
  | .sse url => .obj [("type", .str "sse"), ("url", .str url)]

/-- RemoteTransport.model_validate. -/
def RemoteTransport.model_validate (j : Json) : Option RemoteTransport :=
  match j with
  | .obj kvs => do
    let t ← reqField kvs "type" jStr
    if t = "streamable-http" then do
      let url ← reqField kvs "url" jStr
      pure (RemoteTransport.streamableHttp url)
    else if t = "sse" then do
      let url ← reqField kvs "url" jStr
      pure (RemoteTransport.sse url)
    else none
  | _ => none

/-- Input.model_dump. -/
def Input.model_dump (x : Input) : Json := .obj [
  ("description", jOfOpt Json.str x.description),
  ("isRequired", .bool x.isRequired),
  ("format", jOfOpt Json.str x.format),
  ("value", jOfOpt Json.str x.value),
  ("isSecret", .bool x.isSecret),
  ("default", jOfOpt Json.str x.default),
  ("placeholder", jOfOpt Json.str x.placeholder),
  ("choices", jOfOpt (jOfList Json.str) x.choices)]

/-- Input.model_validate. -/
def Input.model_validate : Json → Option Input
  | .obj kvs => do
    let description ← optField kvs "description" (jOptOf jStr) none
    let isRequired ← optField kvs "isRequired" jBool false
    let format ← optField kvs "format" (jOptOf jStr) (some "string")
    let value ← optField kvs "value" (jOptOf jStr) none
    let isSecret ← optField kvs "isSecret" jBool false
    let default ← optField kvs "default" (jOptOf jStr) none
    let placeholder ← optField kvs "placeholder" (jOptOf jStr) none
    let choices ← optField kvs "choices" (jOptOf (jList jStr)) none
    pure ⟨description, isRequired, format, value, isSecret, default, placeholder, choices⟩
  | _ => none

/-- KeyValueInput.model_dump. -/
def KeyValueInput.model_dump (x : KeyValueInput) : Json := .obj [
  ("description", jOfOpt Json.str x.description),
  ("isRequired", .bool x.isRequired),
  ("format", jOfOpt Json.str x.format),
  ("value", jOfOpt Json.str x.value),
  ("isSecret", .bool x.isSecret),
  ("default", jOfOpt Json.str x.default),
  ("placeholder", jOfOpt Json.str x.placeholder),
  ("choices", jOfOpt (jOfList Json.str) x.choices),
  ("variables", jOfOpt (jOfPairs Input.model_dump) x.variables'),
  ("name", .str x.name)]

/-- KeyValueInput.model_validate. -/
def KeyValueInput.model_validate : Json → Option KeyValueInput
  | .obj kvs => do
    let description ← optField kvs "description" (jOptOf jStr) none
    let isRequired ← optField kvs "isRequired" jBool false
    let format ← optField kvs "format" (jOptOf jStr) (some "string")
    let value ← optField kvs "value" (jOptOf jStr) none
    let isSecret ← optField kvs "isSecret" jBool false
    let default ← optField kvs "default" (jOptOf jStr) none
    let placeholder ← optField kvs "placeholder" (jOptOf jStr) none
    let choices ← optField kvs "choices" (jOptOf (jList jStr)) none
    let vars ← optField kvs "variables" (jOptOf (jPairs Input.model_validate)) none
    let name ← reqField kvs "name" jStr
    pure ⟨description, isRequired, format, value, isSecret, default, placeholder, choices, vars, name⟩
  | _ => none

/-- Argument.model_dump. -/
def Argument.model_dump (x : Argument) : Json := .obj [
  ("description", jOfOpt Json.str x.description),
  ("isRequired", .bool x.isRequired),
  ("format", jOfOpt Json.str x.format),
  ("value", jOfOpt Json.str x.value),
  ("isSecret", .bool x.isSecret),
  ("default", jOfOpt Json.str x.default),
  ("placeholder", jOfOpt Json.str x.placeholder),
  ("choices", jOfOpt (jOfList Json.str) x.choices),
  ("variables", jOfOpt (jOfPairs Input.model_dump) x.variables'),
  ("type", .str x.type),
  ("name", jOfOpt Json.str x.name),
  ("valueHint", jOfOpt Json.str x.valueHint),
  ("isRepeated", .bool x.isRepeated)]

/-- Argument.model_validate. -/
def Argument.model_validate : Json → Option Argument
  | .obj kvs => do
    let description ← optField kvs "description" (jOptOf jStr) none
    let isRequired ← optField kvs "isRequired" jBool false
    let format ← optField kvs "format" (jOptOf jStr) (some "string")
    let value ← optField kvs "value" (jOptOf jStr) none
    let isSecret ← optField kvs "isSecret" jBool false
    let default ← optField kvs "default" (jOptOf jStr) none
    let placeholder ← optField kvs "placeholder" (jOptOf jStr) none
    let choices ← optField kvs "choices" (jOptOf (jList jStr)) none
    let vars ← optField kvs "variables" (jOptOf (jPairs Input.model_validate)) none
    let type ← reqField kvs "type" jStr
    let name ← optField kvs "name" (jOptOf jStr) none
    let valueHint ← optField kvs "valueHint" (jOptOf jStr) none
    let isRepeated ← optField kvs "isRepeated" jBool false
    pure ⟨description, isRequired, format, value, isSecret, default, placeholder, choices,
      vars, type, name, valueHint, isRepeated⟩
  | _ => none

/-- Icon.model_dump. -/
def Icon.model_dump (x : Icon) : Json := .obj [
  ("src", .str x.src),
  ("mimeType", jOfOpt Json.str x.mimeType),
  ("sizes", jOfOpt (jOfList Json.str) x.sizes),
  ("theme", jOfOpt Json.str x.theme)]

/-- Icon.model_validate. -/
def Icon.model_validate : Json → Option Icon
  | .obj kvs => do
    let src ← reqField kvs "src" jStr
    let mimeType ← optField kvs "mimeType" (jOptOf jStr) none
    let sizes ← optField kvs "sizes" (jOptOf (jList jStr)) none
    let theme ← optField kvs "theme" (jOptOf jStr) none
    pure ⟨src, mimeType, sizes, theme⟩
  | _ => none

/-- Repository.model_dump. -/
def Repository.model_dump (x : Repository) : Json := .obj [
  ("url", .str x.url),
  ("source", .str x.source),
  ("id", jOfOpt Json.str x.id),
  ("subfolder", jOfOpt Json.str x.subfolder)]

/-- Repository.model_validate. -/
def Repository.model_validate : Json → Option Repository
  | .obj kvs => do
    let url ← reqField kvs "url" jStr
    let source ← reqField kvs "source" jStr
    let id ← optField kvs "id" (jOptOf jStr) none
    let subfolder ← optField kvs "subfolder" (jOptOf jStr) none
    pure ⟨url, source, id, subfolder⟩
  | _ => none

/-- Package.model_dump. -/
def Package.model_dump (x : Package) : Json := .obj [
  ("registryType", .str x.registryType),
  ("identifier", .str x.identifier),
  ("version", jOfOpt Json.str x.version),
  ("registryBaseUrl", jOfOpt Json.str x.registryBaseUrl),
  ("fileSha256", jOfOpt Json.str x.fileSha256),
  ("runtimeHint", jOfOpt Json.str x.runtimeHint),
  ("transport", x.transport.model_dump),
  ("runtimeArguments", jOfOpt (jOfList Argument.model_dump) x.runtimeArguments),
  ("packageArguments", jOfOpt (jOfList Argument.model_dump) x.packageArguments),
  ("environmentVariables", jOfOpt (jOfList KeyValueInput.model_dump) x.environmentVariables)]

/-- Package.model_validate. -/
def Package.model_validate : Json → Option Package
  | .obj kvs => do
    let registryType ← reqField kvs "registryType" jStr
    let identifier ← reqField kvs "identifier" jStr
    let version ← optField kvs "version" (jOptOf jStr) none
    let registryBaseUrl ← optField kvs "registryBaseUrl" (jOptOf jStr) none
    let fileSha256 ← optField kvs "fileSha256" (jOptOf jStr) none
    let runtimeHint ← optField kvs "runtimeHint" (jOptOf jStr) none
    let transport ← reqField kvs "transport" Transport.model_validate
    let runtimeArguments ← optField kvs "runtimeArguments" (jOptOf (jList Argument.model_validate)) none
    let packageArguments ← optField kvs "packageArguments" (jOptOf (jList Argument.model_validate)) none
    let environmentVariables ← optField kvs "environmentVariables" (jOptOf (jList KeyValueInput.model_validate)) none
    pure ⟨registryType, identifier, version, registryBaseUrl, fileSha256, runtimeHint,
      transport, runtimeArguments, packageArguments, environmentVariables⟩
  | _ => none

/-- MCPServerConfig.model_dump.  The `schema` field is emitted under its field
name (pydantic dumps by name unless `by_alias=True`, which the store never
passes). -/
def MCPServerConfig.model_dump (x : MCPServerConfig) : Json := .obj [
  ("schema", .str x.schema),
  ("name", .str x.name),
  ("description", .str x.description),
  ("version", .str x.version),
  ("status", jOfOpt Json.str x.status),
  ("title", jOfOpt Json.str x.title),
  ("websiteUrl", jOfOpt Json.str x.websiteUrl),
  ("repository", jOfOpt Repository.model_dump x.repository),
  ("icons", jOfOpt (jOfList Icon.model_dump) x.icons),
  ("packages", jOfOpt (jOfList Package.model_dump) x.packages),
  ("remotes", jOfOpt (jOfList RemoteTransport.model_dump) x.remotes)]

/-- Reading of the aliased `schema` field: `populate_by_name = True` accepts
the alias `$schema` as well as the field name, defaulting otherwise. -/
def schemaField (kvs : List (String × Json)) : Option String :=
  match jlookup "$schema" kvs with
  | some j => jStr j
  | none =>
    match jlookup "schema" kvs with
    | some j => jStr j
    | none => some defaultSchemaUrl

/-- MCPServerConfig.model_validate, including the `validate_name` field
validator. -/
def MCPServerConfig.model_validate : Json → Option MCPServerConfig
  | .obj kvs => do
    let schema ← schemaField kvs
    let name ← reqField kvs "name" jStr
    if validName name then
      let description ← reqField kvs "description" jStr
      let version ← reqField kvs "version" jStr
      let status ← optField kvs "status" (jOptOf jStr) (some "active")
      let title ← optField kvs "title" (jOptOf jStr) none
      let websiteUrl ← optField kvs "websiteUrl" (jOptOf jStr) none
      let repository ← optField kvs "repository" (jOptOf Repository.model_validate) none
      let icons ← optField kvs "icons" (jOptOf (jList Icon.model_validate)) none
      let packages ← optField kvs "packages" (jOptOf (jList Package.model_validate)) none
      let remotes ← optField kvs "remotes" (jOptOf (jList RemoteTransport.model_validate)) none
      pure ⟨schema, name, description, version, status, title, websiteUrl,
        repository, icons, packages, remotes⟩
    else none
  | _ => none

/-- CPMRuntimeConfig.model_dump. -/
def CPMRuntimeConfig.model_dump (x : CPMRuntimeConfig) : Json := .obj [
  ("name", .str x.name),
  ("registry_name", .str x.registry_name),
  ("registry_url", jOfOpt Json.str x.registry_url),
  ("install_method", .str x.install_method),
  ("command", jOfOpt Json.str x.command),
  ("args", jOfOpt (jOfList Json.str) x.args),
  ("url", jOfOpt Json.str x.url),
  ("headers", jOfOpt (jOfPairs Json.str) x.headers),
  ("env", jOfPairs Json.str x.env),
  ("groups", jOfList Json.str x.groups),
  ("original_config", jOfOpt MCPServerConfig.model_dump x.original_config)]

/-- CPMRuntimeConfig.model_validate. -/
def CPMRuntimeConfig.model_validate : Json → Option CPMRuntimeConfig
  | .obj kvs => do
    let name ← reqField kvs "name" jStr
    let registry_name ← reqField kvs "registry_name" jStr
    let registry_url ← optField kvs "registry_url" (jOptOf jStr) none
    let install_method ← reqField kvs "install_method" jStr
    let command ← optField kvs "command" (jOptOf jStr) none
    let args ← optField kvs "args" (jOptOf (jList jStr)) (some [])
    let url ← optField kvs "url" (jOptOf jStr) none
    let headers ← optField kvs "headers" (jOptOf (jPairs jStr)) (some [])
    let env ← optField kvs "env" (jPairs jStr) []
    let groups ← optField kvs "groups" (jList jStr) []
    let original_config ← optField kvs "original_config" (jOptOf MCPServerConfig.model_validate) none
    pure ⟨name, registry_name, registry_url, install_method, command, args, url,
      headers, env, groups, original_config⟩
  | _ => none

/-- ServerManifest.model_dump. -/
def ServerManifest.model_dump (x : ServerManifest) : Json := .obj [
  ("name", .str x.name),
  ("version", .str x.version),
  ("description", jOfOpt Json.str x.description),
  ("servers", jOfPairs Json.str x.servers),
  ("devServers", jOfPairs Json.str x.devServers),
  ("groups", jOfPairs (jOfList Json.str) x.groups),
  ("config", jOfPairs (jOfPairs Json.str) x.config)]

/-- ServerManifest.model_validate. -/
def ServerManifest.model_validate : Json → Option ServerManifest
  | .obj kvs => do
    let name ← reqField kvs "name" jStr
    let version ← optField kvs "version" jStr "1.0.0"
    let description ← optField kvs "description" (jOptOf jStr) none
    let servers ← optField kvs "servers" (jPairs jStr) []
    let devServers ← optField kvs "devServers" (jPairs jStr) []
    let groups ← optField kvs "groups" (jPairs (jList jStr)) []
    let config ← optField kvs "config" (jPairs (jPairs jStr)) []
    pure ⟨name, version, description, servers, devServers, groups, config⟩
  | _ => none

/-- ServerLockEntry.model_dump. -/
def ServerLockEntry.model_dump (x : ServerLockEntry) : Json := .obj [
  ("resolved", .str x.resolved),
  ("version", .str x.version),
  ("registryMetadata", x.registryMetadata.model_dump),
  ("integrity", jOfOpt Json.str x.integrity),
  ("timestamp", .str x.timestamp)]

/-- ServerLockEntry.model_validate. -/
def ServerLockEntry.model_validate : Json → Option ServerLockEntry
  | .obj kvs => do
    let resolved ← reqField kvs "resolved" jStr
    let version ← reqField kvs "version" jStr
    let registryMetadata ← reqField kvs "registryMetadata" MCPServerConfig.model_validate
    let integrity ← optField kvs "integrity" (jOptOf jStr) none
    let timestamp ← reqField kvs "timestamp" jStr
    pure ⟨resolved, version, registryMetadata, integrity, timestamp⟩
  | _ => none

/-- ServerLockfile.model_dump. -/
def ServerLockfile.model_dump (x : ServerLockfile) : Json := .obj [
  ("lockfileVersion", .num x.lockfileVersion),
  ("servers", jOfPairs ServerLockEntry.model_dump x.servers)]

/-- ServerLockfile.model_validate. -/
def ServerLockfile.model_validate : Json → Option ServerLockfile
  | .obj kvs => do
    let lockfileVersion ← optField kvs "lockfileVersion" jInt 1
    let servers ← optField kvs "servers" (jPairs ServerLockEntry.model_validate) []
    pure ⟨lockfileVersion, servers⟩
  | _ => none

/-- GroupMetadata.model_dump. -/
def GroupMetadata.model_dump (x : GroupMetadata) : Json := .obj [
  ("name", .str x.name),
  ("description", jOfOpt Json.str x.description),
  ("servers", jOfList Json.str x.servers),
  ("created_at", .str x.created_at),
  ("updated_at", .str x.updated_at)]

/-- GroupMetadata.model_validate. -/
def GroupMetadata.model_validate : Json → Option GroupMetadata
  | .obj kvs => do
    let name ← reqField kvs "name" jStr
    let description ← optField kvs "description" (jOptOf jStr) none
    let servers ← optField kvs "servers" (jList jStr) []
    let created_at ← reqField kvs "created_at" jStr
    let updated_at ← reqField kvs "updated_at" jStr
    pure ⟨name, description, servers, created_at, updated_at⟩
  | _ => none

/-- Name validity of the registry snapshot carried inside a runtime config
(holds by construction for every pydantic-validated instance). -/
def CPMRuntimeConfig.wfNames (c : CPMRuntimeConfig) : Bool :=
  match c.original_config with
  | none => true
  | some oc => validName oc.name

/-- Name validity of every registry snapshot inside a lockfile. -/
def ServerLockfile.wfNames (lf : ServerLockfile) : Bool :=
  lf.servers.all (fun kv => validName kv.2.registryMetadata.name)

/-! ## Semantic versions (src/cpm/utils/semver.py) -/

/-- Parsed `SemanticVersion` state: major/minor/patch plus the raw prerelease
and build strings (the class also keeps `original`, used only for printing). -/
structure SemanticVersion where
  major : Nat
  minor : Nat
  patch : Nat
  prerelease : Option String := none
  build : Option String := none
deriving DecidableEq, Repr

/-- Numeric semver component: `0|[1-9]\d*` (digits, no leading zero). -/
def numericCore (s : String) : Bool :=
  s.length > 0 && s.data.all Char.isDigit && (s == "0" || s.front != '0')

/-- Character class `[0-9a-zA-Z-]` of semver identifiers. -/
def semverIdentChar (c : Char) : Bool :=
  c.isDigit || c.isAlpha || c == '-'

/-- Prerelease identifier: `0|[1-9]\d*|\d*[a-zA-Z-][0-9a-zA-Z-]*`, i.e. a
nonempty identifier over the class that, when purely numeric, has no leading
zero. -/
def prereleaseIdent (s : String) : Bool :=
  s.length > 0 && s.data.all semverIdentChar &&
    (!s.data.all Char.isDigit || s == "0" || s.front != '0')

/-- Build identifier: nonempty `[0-9a-zA-Z-]+`. -/
def buildIdent (s : String) : Bool :=
  s.length > 0 && s.data.all semverIdentChar

/-- Validity of a dot-separated build suffix. -/
def validBuild (b : String) : Bool := (pySplit b '.').all buildIdent

/-- Validity of a dot-separated prerelease suffix. -/
def validPre (p : String) : Bool := (pySplit p '.').all prereleaseIdent

/-- Split off the build-metadata suffix: the regex admits at most one `+`
(the build charset has none), so two or more is a parse failure. -/
def splitBuild (s : String) : Option (String × Option String) :=
  match pySplit s '+' with
  | [x] => some (x, none)
  | [x, b] => some (x, some b)
  | _ => none

/-- Split at the first `-`: the numeric core has no hyphen, so everything
after the first one is the prerelease suffix (which may itself contain `-`). -/
def splitPre (s : String) : String × Option String :=
  match pySplit s '-' with
  | [] => (s, none)
  | [x] => (x, none)
  | x :: rest => (x, some (String.intercalate "-" rest))

/-- Conversion `int(p)` of a validated numeric component. -/
def parseNumeric (s : String) : Option Nat :=
  if numericCore s then digitsToNat s else none

/-- MAJOR.MINOR.PATCH core: exactly three numeric components. -/
def parseSemverCore (s : String) : Option (Nat × Nat × Nat) :=
  match pySplit s '.' with
  | [a, b, c] => do
    let ma ← parseNumeric a
    let mi ← parseNumeric b
    let pa ← parseNumeric c
    pure (ma, mi, pa)
  | _ => none

/-- Guard helper: Python control flow that raises on a failed check. -/
def ensure (b : Bool) : Option Unit := if b then some () else none

/-- SemanticVersion._parse: the full semver regex
`^MAJOR.MINOR.PATCH(-PRERELEASE)?(+BUILD)?$` as a direct parser. -/
def parseSemverString (s : String) : Option SemanticVersion := do
  let (rest, build) ← splitBuild s
  let _ ← ensure (match build with | some b => validBuild b | none => true)
  let (core, pre) := splitPre rest
  let _ ← ensure (match pre with | some p => validPre p | none => true)
  let (ma, mi, pa) ← parseSemverCore core
  pure ⟨ma, mi, pa, pre, build⟩

/-- SemanticVersion.__init__: the special tokens `latest` and `linked` become
the sentinel `major = 999999` before any regex parsing; every other string
goes through `_parse`. -/
def SemanticVersion.ofString (s : String) : Option SemanticVersion :=
  if s = "latest" ∨ s = "linked" then
    some ⟨999999, 0, 0, none, none⟩
  else
    parseSemverString s

/-- Python `int(p)` as used on prerelease identifiers (identifiers range over
`[0-9a-zA-Z-]`, so only an optional leading `-` sign and digits can succeed). -/
def pyInt (s : String) : Option Int :=
  if s.length > 1 && s.front == '-' && ((s.drop 1).data.all Char.isDigit) then
    (digitsToNat (s.drop 1)).map (fun n => -(n : Int))
  else if s.length > 0 && s.data.all Char.isDigit then
    (digitsToNat s).map Int.ofNat
  else none

/-- SemanticVersion._compare_prerelease on the already-split identifier
lists: numeric when both sides convert with `int`, string comparison
otherwise; a missing identifier sorts lower. -/
def comparePreParts : List String → List String → Int
  | [], [] => 0
  | [], _ :: _ => -1
  | _ :: _, [] => 1
  | p1 :: r1, p2 :: r2 =>
    match pyInt p1, pyInt p2 with
    | some n1, some n2 =>
      if n1 < n2 then -1 else if n2 < n1 then 1 else comparePreParts r1 r2
    | _, _ =>
      if pyStrLt p1 p2 then -1 else if pyStrLt p2 p1 then 1 else comparePreParts r1 r2

/-- SemanticVersion.__lt__. -/
def SemanticVersion.ltBool (a b : SemanticVersion) : Bool :=
  if a.major ≠ b.major then decide (a.major < b.major)
  else if a.minor ≠ b.minor then decide (a.minor < b.minor)
  else if a.patch ≠ b.patch then decide (a.patch < b.patch)
  else
    match a.prerelease, b.prerelease with
    | none, none => false
    | none, some _ => false
    | some _, none => true
    | some p1, some p2 => decide (comparePreParts (pySplit p1 '.') (pySplit p2 '.') < 0)

/-! ## Registry client (src/cpm/core/registry_v2.py) -/

/-- Registry entry as it sits in the cached list: the inner `server` record
of a page item, with the fields `get_server` reads (`name`, `version`; the
remaining fields of the raw record are abstracted by `payload`, an identifier
that distinguishes entries). -/
structure RegEntry where
  name : Option String := none
  version : Option String := none
  payload : Nat := 0
deriving DecidableEq, Repr

/-- RegistryClient._parse_version: strip prerelease/build after the first `-`
or `+`, split on dots, convert the first three components with `int`; any
conversion failure yields the zero key.  The result is a Python tuple of up
to three ints. -/
def parse_version (version_str : String) : List Nat :=
  let base := ((pySplit version_str '-').headD version_str)
  let base := ((pySplit base '+').headD base)
  let parts := pySplit base '.'
  match (parts.take 3).mapM digitsToNat with
  | some ns => ns
  | none => [0, 0, 0]

/-- Python tuple `<` on the int tuples returned by `_parse_version`
(lexicographic, a strict prefix sorts lower). -/
def keyLt : List Nat → List Nat → Bool
  | [], [] => false
  | [], _ :: _ => true
  | _ :: _, [] => false
  | a :: as, b :: bs => if a < b then true else if b < a then false else keyLt as bs

/-- One step of Python's stable `list.sort(key=…, reverse=True)`: insert an
element after every already-placed element whose key is not strictly
smaller, so equal keys keep their original relative order. -/
def insertDescBy (key : α → List Nat) (x : α) : List α → List α
  | [] => [x]
  | y :: ys => if keyLt (key y) (key x) then x :: y :: ys else y :: insertDescBy key x ys

/-- Python `list.sort(key=…, reverse=True)`: stable descending sort. -/
def sortDescBy (key : α → List Nat) (l : List α) : List α :=
  l.foldl (fun acc x => insertDescBy key x acc) []

/-- Sort key of an entry: `_parse_version(s.get("version", "0.0.0"))`. -/
def entryKey (e : RegEntry) : List Nat := parse_version (e.version.getD "0.0.0")

/-- The distinct `ValueError` outcomes of `RegistryClient.get_server`. -/
inductive RegistryError where
  | serverNotFound (name : String)
  | versionNotFound (name version : String)
  | noVersions (name : String)
deriving DecidableEq, Repr

/-- Scan of the sorted entries for an exact version-string match. -/
def findExactVersion (v : String) : List RegEntry → Option RegEntry
  | [] => none
  | e :: es => if e.version = some v then some e else findExactVersion v es

/-- RegistryClient.get_server over the fetched server list: filter entries by
name, sort descending by the parsed numeric version key, then either return
the first entry (latest/unspecified, where an empty requested version is
falsy and also means latest) or scan for an exact version match. -/
def get_server (servers : List RegEntry) (server_name : String) (version : Option String) :
    Except RegistryError RegEntry :=
  let matching := servers.filter (fun e => e.name = some server_name)
  if matching.isEmpty then .error (.serverNotFound server_name)
  else
    let sorted := sortDescBy entryKey matching
    match version with
    | some v =>
      if v ≠ "" ∧ v ≠ "latest" then
        match findExactVersion v sorted with
        | some e => .ok e
        | none => .error (.versionNotFound server_name v)
      else
        match sorted with
        | e :: _ => .ok e
        | [] => .error (.noVersions server_name)
    | none =>
      match sorted with
      | e :: _ => .ok e
      | [] => .error (.noVersions server_name)

/-! ## Config adapter (src/cpm/core/adapter.py)

`env_overrides : Optional[Dict[str, str]]` is embedded as a plain dict with
`[]` for `None`; the code only ever tests it for truthiness (where `None`
and `{}` coincide) and looks keys up in it. -/

/-- The selection loop of `_select_best_package`: the first package whose
transport is stdio. -/
def findStdioPackage : List Package → Option Package
  | [] => none
  | p :: ps => if p.transport.isStdio then some p else findStdioPackage ps

/-- ServerConfigAdapter._select_best_package: first package whose transport is
stdio, else the first package; an empty list raises. -/
def select_best_package (packages : List Package) : Except String Package :=
  match packages with
  | [] => .error "No packages available"
  | p :: _ =>
    match findStdioPackage packages with
    | some pkg => .ok pkg
    | none => .ok p

/-- Whether a remote transport is streamable-http. -/
def RemoteTransport.isStreamableHttp : RemoteTransport → Bool
  | .streamableHttp _ => true
  | _ => false

/-- URL of a remote transport. -/
def RemoteTransport.urlOf : RemoteTransport → String
  | .streamableHttp u => u
  | .sse u => u

/-- Literal `type` tag of a remote transport. -/
def RemoteTransport.typeOf : RemoteTransport → String
  | .streamableHttp _ => "streamable-http"
  | .sse _ => "sse"

/-- The selection loop of `_select_best_remote`: the first streamable-http
remote. -/
def findStreamableRemote : List RemoteTransport → Option RemoteTransport
  | [] => none
  | r :: rs => if r.isStreamableHttp then some r else findStreamableRemote rs

/-- ServerConfigAdapter._select_best_remote: first streamable-http remote,
else the first remote; an empty list raises. -/
def select_best_remote (remotes : List RemoteTransport) : Except String RemoteTransport :=
  match remotes with
  | [] => .error "No remotes available"
  | r :: _ =>
    match findStreamableRemote remotes with
    | some r' => .ok r'
    | none => .ok r

/-- Tokens contributed by one declared package argument: a positional argument
contributes `arg.value or ""`; a named one contributes `arg.name or ""` and
then its value when truthy. -/
def argTokens (a : Argument) : List String :=
  if a.type = "positional" then [pyOrStr a.value ""]
  else if a.type = "named" then
    [pyOrStr a.name ""] ++
      (match a.value with
       | some v => if v = "" then [] else [v]
       | none => [])
  else []

/-- Last `/`-separated component of an identifier (`identifier.split('/')[-1]`). -/
def lastComponent (s : String) : String :=
  (pySplit s '/').getLastD s

/-- ServerConfigAdapter._generate_command: map the lowered registry type to a
base command and argument prefix, or fall back to the runtime hint; then
append the declared package arguments in order. -/
def generate_command (p : Package) : Except String (String × List String) :=
  let rt := pyLower p.registryType
  let base : Except String (String × List String) :=
    if rt = "npm" then .ok (pyOrStr p.runtimeHint "npx", ["-y", p.identifier])
    else if rt = "pypi" then .ok (pyOrStr p.runtimeHint "uvx", [p.identifier])
    else if rt = "oci" then .ok (pyOrStr p.runtimeHint "docker", ["run", "--rm", p.identifier])
    else if rt = "nuget" then .ok (pyOrStr p.runtimeHint "dotnet", ["tool", "run", p.identifier])
    else if rt = "mcpb" then .ok ("curl", ["-L", "-o", lastComponent p.identifier, p.identifier])
    else if pyTruthyOptStr p.runtimeHint then .ok (pyOrStr p.runtimeHint "", [p.identifier])
    else .error ("Unknown registry type " ++ rt ++ " and no runtimeHint provided")
  match base with
  | .error e => .error e
  | .ok (cmd, args0) =>
    .ok (cmd, (p.packageArguments.getD []).foldl (fun acc a => acc ++ argTokens a) args0)

/-- ServerConfigAdapter._extract_env_vars: for every declared variable take
the override when the key is present, else a truthy declared default, else
the empty string; then apply the overrides on top. -/
def extract_env_vars (p : Package) (env_overrides : List (String × String)) :
    List (String × String) :=
  let base := (p.environmentVariables.getD []).foldl (fun env ev =>
    let v :=
      if env_overrides ≠ [] ∧ (dGet env_overrides ev.name).isSome then
        (dGet env_overrides ev.name).getD ""
      else
        match ev.default with
        | some d => if d ≠ "" then d else ""
        | none => ""
    dInsert env ev.name v) []
  if env_overrides ≠ [] then dUpdate base env_overrides else base

/-- ServerConfigAdapter._adapt_package. -/
def adapt_package (server_json : MCPServerConfig) (simple_name : String)
    (env_overrides : List (String × String)) : Except String CPMRuntimeConfig :=
  match select_best_package (server_json.packages.getD []) with
  | .error e => .error e
  | .ok pkg =>
    match generate_command pkg with
    | .error e => .error e
    | .ok (command, args) =>
      .ok { name := simple_name
            registry_name := server_json.name
            install_method := "stdio"
            command := some command
            args := some args
            env := extract_env_vars pkg env_overrides
            original_config := some server_json }

/-- ServerConfigAdapter._adapt_remote.  `StreamableHttpTransport` and
`SseTransport` have no `headers` attribute, so the `hasattr` branch never
fires and headers start empty before overrides are applied. -/
def adapt_remote (server_json : MCPServerConfig) (simple_name : String)
    (env_overrides : List (String × String)) : Except String CPMRuntimeConfig :=
  match select_best_remote (server_json.remotes.getD []) with
  | .error e => .error e
  | .ok remote =>
    let headers := if env_overrides ≠ [] then dUpdate [] env_overrides else []
    .ok { name := simple_name
          registry_name := server_json.name
          install_method := remote.typeOf
          url := some remote.urlOf
          headers := some headers
          env := headers
          original_config := some server_json }

/-- ServerConfigAdapter.adapt: derive the simple name when none (or an empty
one) is supplied, then branch on the truthiness of `packages` / `remotes`. -/
def adapt (server_json : MCPServerConfig) (simple_name : Option String)
    (env_overrides : List (String × String)) : Except String CPMRuntimeConfig :=
  let sname :=
    if pyTruthyOptStr simple_name then simple_name.getD ""
    else lastComponent server_json.name
  if (server_json.packages.getD []) ≠ [] then
    adapt_package server_json sname env_overrides
  else if (server_json.remotes.getD []) ≠ [] then
    adapt_remote server_json sname env_overrides
  else
    .error ("Server " ++ server_json.name ++ " has no packages or remotes configured")

/-- ServerConfigAdapter.get_missing_required_vars: walk the declared
environment variables of the FIRST package of the original registry config
and report those that are required and whose current env value is falsy
(absent or empty string). -/
def get_missing_required_vars (config : CPMRuntimeConfig) : List String :=
  match config.original_config with
  | none => []
  | some oc =>
    match oc.packages with
    | none => []
    | some [] => []
    | some (package :: _) =>
      (package.environmentVariables.getD []).foldl (fun missing ev =>
        if ev.isRequired && !pyTruthyOptStr (dGet config.env ev.name) then
          missing ++ [ev.name]
        else missing) []

/-! ## Config validator (src/cpm/utils/config_validator.py) -/

/-- Literal placeholder shape: the value starts with the two characters
`$\x7b` and ends with `\x7d`. -/
def placeholderShaped (v : String) : Bool :=
  "$\x7b".data.isPrefixOf v.data && "\x7d".data.isSuffixOf v.data

/-- ConfigValidator.get_missing_vars: the env keys whose value has the
literal `$\x7bNAME\x7d` placeholder shape (values here are always strings, so
the `isinstance` guard always passes; a config without env entries reports
nothing). -/
def get_missing_vars (server_config : CPMRuntimeConfig) : List String :=
  if server_config.env = [] then []
  else server_config.env.foldl (fun missing kv =>
    if placeholderShaped kv.2 then missing ++ [kv.1] else missing) []

/-- ConfigValidator.is_configured. -/
def is_configured (server_config : CPMRuntimeConfig) : Bool :=
  (get_missing_vars server_config).length == 0

/-! ## Global config manager (src/cpm/core/config.py)

The in-memory state the manager mutates between `_load_config` and
`_save_config`: the `_servers` and `_groups` dicts.  `_save_config` is the
identity on this state (its file write is outside the embedding), so every
mutating method is a function on the state returning the new state and the
method's boolean result.  `datetime.now().isoformat()` in GroupMetadata's
defaults is passed in explicitly as `now`. -/

/-- In-memory state of GlobalConfigManager. -/
structure GlobalState where
  servers : List (String × CPMRuntimeConfig)
  groups : List (String × GroupMetadata)
deriving DecidableEq, Repr

/-- Outcome of loading a persisted file: absent, unparseable, or parsed. -/
inductive FileState (α : Type) where
  | missing
  | corrupt
  | parsed (a : α)
deriving DecidableEq, Repr

/-- GlobalConfigManager._load_config: a missing file leaves the state empty;
a `json.JSONDecodeError` is caught, logged and also leaves the state empty
(no exception escapes, no backup is made); a parsed document populates the
state.  The per-entry pydantic fallback chain is outside this model: the
document is taken as already-validated entries. -/
def GlobalConfigManager.load_config (file : FileState GlobalState) :
    Except String GlobalState :=
  match file with
  | .missing => .ok ⟨[], []⟩
  | .corrupt => .ok ⟨[], []⟩
  | .parsed st => .ok st

/-- GlobalConfigManager.add_server. -/
def GlobalConfigManager.add_server (st : GlobalState) (server : CPMRuntimeConfig)
    (force : Bool) : GlobalState × Bool :=
  if (dGet st.servers server.name).isSome && !force then (st, false)
  else ({ st with servers := dInsert st.servers server.name server }, true)

/-- GlobalConfigManager.remove_server. -/
def GlobalConfigManager.remove_server (st : GlobalState) (server_name : String) :
    GlobalState × Bool :=
  if (dGet st.servers server_name).isNone then (st, false)
  else ({ st with servers := dErase st.servers server_name }, true)

/-- GlobalConfigManager.update_server_config: replace the server's entire env
dict (an empty map clears all variables). -/
def GlobalConfigManager.update_server_config (st : GlobalState) (server_name : String)
    (env_vars : List (String × String)) : GlobalState × Bool :=
  if (dGet st.servers server_name).isNone then (st, false)
  else
    ({ st with servers :=
        dUpdateVal st.servers server_name (fun server => { server with env := env_vars }) },
     true)

/-- GlobalConfigManager.create_group. -/
def GlobalConfigManager.create_group (st : GlobalState) (name : String)
    (description : Option String) (now : String) : GlobalState × Bool :=
  if (dGet st.groups name).isSome then (st, false)
  else
    let meta : GroupMetadata :=
      { name := name, description := description, servers := [],
        created_at := now, updated_at := now }
    ({ st with groups := dInsert st.groups name meta }, true)

/-- GlobalConfigManager.delete_group: remove the tag from every server, then
delete the group's metadata. -/
def GlobalConfigManager.delete_group (st : GlobalState) (name : String) :
    GlobalState × Bool :=
  if (dGet st.groups name).isNone then (st, false)
  else
    ({ servers := st.servers.map (fun kv => (kv.1, kv.2.remove_group name)),
       groups := dErase st.groups name }, true)

/-- GlobalConfigManager.add_server_to_group: fails only when the server is
unknown; a missing group is silently created first, then the server is
tagged. -/
def GlobalConfigManager.add_server_to_group (st : GlobalState)
    (server_name group_name : String) (now : String) : GlobalState × Bool :=
  if (dGet st.servers server_name).isNone then (st, false)
  else
    let st1 :=
      if (dGet st.groups group_name).isNone then
        (GlobalConfigManager.create_group st group_name none now).1
      else st
    ({ st1 with servers :=
        dUpdateVal st1.servers server_name (fun server => server.add_group group_name) },
     true)

/-- GlobalConfigManager.remove_server_from_group. -/
def GlobalConfigManager.remove_server_from_group (st : GlobalState)
    (server_name group_name : String) : GlobalState × Bool :=
  if (dGet st.servers server_name).isNone then (st, false)
  else
    ({ st with servers :=
        dUpdateVal st.servers server_name (fun server => server.remove_group group_name) },
     true)

/-- GlobalConfigManager.get_servers_in_group. -/
def GlobalConfigManager.get_servers_in_group (st : GlobalState) (group_name : String) :
    List (String × CPMRuntimeConfig) :=
  st.servers.filter (fun kv => kv.2.has_group group_name)

/-! ## Local config manager (src/cpm/core/local_config.py)

State: the parsed `server.json` manifest plus the per-server config files
under `.cpm/config/` (an association of server name to its parsed file).
Methods that `raise` become `Except String`; the `try/except` blocks around
per-server file updates swallow failures (a missing file is skipped). -/

/-- On-disk state handled by LocalConfigManager. -/
structure LocalState where
  manifest : LocalManifest
  files : List (String × CPMRuntimeConfig)
deriving DecidableEq, Repr

/-- LocalConfigManager.load_manifest: a missing `server.json` raises
`FileNotFoundError`; a `json.JSONDecodeError` or pydantic `ValidationError`
is re-raised as `ValueError("Invalid server.json: …")`. -/
def LocalConfigManager.load_manifest (file : FileState LocalManifest) :
    Except String LocalManifest :=
  match file with
  | .missing => .error "No server.json found"
  | .corrupt => .error "Invalid server.json"
  | .parsed m => .ok m

/-- LocalConfigManager.update_server_config: replace the server's entire env
dict in its config file. -/
def LocalConfigManager.update_server_config (st : LocalState) (name : String)
    (env_vars : List (String × String)) : Except String LocalState :=
  match dGet st.files name with
  | none => .error ("Server not found: " ++ name)
  | some _ =>
    let files1 := dUpdateVal st.files name (fun server => { server with env := env_vars })
    .ok { st with files := files1 }

/-- LocalConfigManager.create_group. -/
def LocalConfigManager.create_group (st : LocalState) (name : String) :
    Except String LocalState :=
  if (dGet st.manifest.groups name).isSome then
    .error ("Group already exists: " ++ name)
  else
    let manifest1 := { st.manifest with groups := dInsert st.manifest.groups name [] }
    .ok { st with manifest := manifest1 }

/-- LocalConfigManager.delete_group: drop the group from the manifest, then
strip the tag from each member server's config file (failures to update a
file are swallowed; the tag is removed only when present). -/
def LocalConfigManager.delete_group (st : LocalState) (name : String) :
    Except String LocalState :=
  match dGet st.manifest.groups name with
  | none => .error ("Group not found: " ++ name)
  | some members =>
    let manifest1 := { st.manifest with groups := dErase st.manifest.groups name }
    let files1 := members.foldl (fun fs server_name =>
      match dGet fs server_name with
      | none => fs
      | some server =>
        if name ∈ server.groups then
          dUpdateVal fs server_name
            (fun s => { s with groups := s.groups.erase name })
        else fs) st.files
    .ok ⟨manifest1, files1⟩

/-- LocalConfigManager.add_server_to_group: the group must already exist in
the manifest and the server must be a (dev-)dependency; the member list and
the server file's tag list are both extended when absent. -/
def LocalConfigManager.add_server_to_group (st : LocalState)
    (server_name group_name : String) : Except String LocalState :=
  match dGet st.manifest.groups group_name with
  | none => .error ("Group not found: " ++ group_name)
  | some members =>
    if (dGet st.manifest.servers server_name).isNone &&
        (dGet st.manifest.devServers server_name).isNone then
      .error ("Server not found: " ++ server_name)
    else
      let manifest1 :=
        if server_name ∈ members then st.manifest
        else { st.manifest with
          groups := dInsert st.manifest.groups group_name (members ++ [server_name]) }
      let files1 :=
        match dGet st.files server_name with
        | none => st.files
        | some server =>
          if group_name ∈ server.groups then st.files
          else dUpdateVal st.files server_name
            (fun s => { s with groups := s.groups ++ [group_name] })
      .ok ⟨manifest1, files1⟩

/-- LocalConfigManager.remove_server_from_group. -/
def LocalConfigManager.remove_server_from_group (st : LocalState)
    (server_name group_name : String) : Except String LocalState :=
  match dGet st.manifest.groups group_name with
  | none => .error ("Group not found: " ++ group_name)
  | some members =>
    if server_name ∈ members then
      let manifest1 := { st.manifest with
        groups := dInsert st.manifest.groups group_name (members.erase server_name) }
      let files1 :=
        match dGet st.files server_name with
        | none => st.files
        | some server =>
          if group_name ∈ server.groups then
            dUpdateVal st.files server_name
              (fun s => { s with groups := s.groups.erase group_name })
          else st.files
      .ok ⟨manifest1, files1⟩
    else .ok st

/-! ## Client format adapters (src/cpm/clients/base.py) -/

/-- JSONClientManager._load_config for a client whose servers live under the
top-level `configure_key_name` key (default `"mcpServers"`): a missing file
yields the empty config; a JSON parse failure renames the file to a `.bak`
sibling (the boolean records that backup) and yields the empty config; a
parsed document gets the key added when absent. -/
def JSONClientManager.load_config (configure_key_name : String)
    (file : FileState (List (String × Json))) : List (String × Json) × Bool :=
  match file with
  | .missing => ([(configure_key_name, .obj [])], false)
  | .corrupt => ([(configure_key_name, .obj [])], true)
  | .parsed kvs =>
    if (jlookup configure_key_name kvs).isSome then (kvs, false)
    else (kvs ++ [(configure_key_name, .obj [])], false)

/-- JSONClientManager.to_client_format: a truthy `command` yields the stdio
shape (env values filtered to the truthy ones, the `env` key only present
when the internal env dict is non-empty); else a truthy `url` yields the
remote shape; else the whole config is dumped. -/
def JSONClientManager.to_client_format (server_config : CPMRuntimeConfig) : Json :=
  if pyTruthyOptStr server_config.command then
    .obj ([("command", .str (server_config.command.getD "")),
           ("args", jOfList Json.str (server_config.args.getD []))] ++
      (if server_config.env ≠ [] then
        [("env", Json.obj ((server_config.env.filter (fun kv => kv.2 ≠ "")).map
          (fun kv => (kv.1, Json.str kv.2))))]
       else []))
  else if pyTruthyOptStr server_config.url then
    .obj [("url", .str (server_config.url.getD "")),
          ("headers", jOfPairs Json.str (server_config.headers.getD []))]
  else
    server_config.model_dump

/-- YAMLClientManager.to_client_format: character-for-character the same body
as the JSON variant in the source. -/
def YAMLClientManager.to_client_format (server_config : CPMRuntimeConfig) : Json :=
  if pyTruthyOptStr server_config.command then
    .obj ([("command", .str (server_config.command.getD "")),
           ("args", jOfList Json.str (server_config.args.getD []))] ++
      (if server_config.env ≠ [] then
        [("env", Json.obj ((server_config.env.filter (fun kv => kv.2 ≠ "")).map
          (fun kv => (kv.1, Json.str kv.2))))]
       else []))
  else if pyTruthyOptStr server_config.url then
    .obj [("url", .str (server_config.url.getD "")),
          ("headers", jOfPairs Json.str (server_config.headers.getD []))]
  else
    server_config.model_dump

/-! ## Concrete sample entities used by the concrete evaluations below -/

/-- Declared required environment variable `API_KEY` with no default. -/
def apiKeyVar : KeyValueInput := { name := "API_KEY", isRequired := true }

/-- npm package with stdio transport and the single required `API_KEY`. -/
def npmSearchPackage : Package :=
  { registryType := "npm", identifier := "io.github.acme/search-pkg",
    transport := .stdio, environmentVariables := some [apiKeyVar] }

/-- oci package whose transport is not stdio. -/
def ociSearchPackage : Package :=
  { registryType := "oci", identifier := "ghcr.io/acme/search:1",
    transport := .sse "https://acme.example/sse" }

/-- Registry description of `io.github.acme/search` with only the npm/stdio
package. -/
def searchRegistryConfig : MCPServerConfig :=
  { name := "io.github.acme/search", description := "Search server",
    version := "1.0.0", packages := some [npmSearchPackage] }

/-- Registry description listing the oci package first and the npm/stdio
package second. -/
def ociFirstRegistryConfig : MCPServerConfig :=
  { name := "io.github.acme/search", description := "Search server",
    version := "1.0.0", packages := some [ociSearchPackage, npmSearchPackage] }

/-- Runtime config whose required `API_KEY` is set to the literal placeholder
`$\x7bAPI_KEY\x7d`. -/
def placeholderRuntimeConfig : CPMRuntimeConfig :=
  { name := "search", registry_name := "io.github.acme/search",
    install_method := "stdio", command := some "npx",
    args := some ["-y", "io.github.acme/search-pkg"],
    env := [("API_KEY", "$\x7bAPI_KEY\x7d")],
    original_config := some searchRegistryConfig }

/-- Minimal installed stdio server named `mysql`. -/
def mysqlServer : CPMRuntimeConfig :=
  { name := "mysql", registry_name := "io.github.acme/mysql",
    install_method := "stdio", command := some "npx" }

/-- Registry entry for version `1.0.0-alpha` (listed first). -/
def entryAlpha : RegEntry :=
  { name := some "io.github.acme/search", version := some "1.0.0-alpha", payload := 0 }

/-- Registry entry for version `1.0.0` (listed second). -/
def entryRelease : RegEntry :=
  { name := some "io.github.acme/search", version := some "1.0.0", payload := 1 }

/-- Stdio runtime config whose only env value is the empty string. -/
def emptyEnvValueConfig : CPMRuntimeConfig :=
  { name := "search", registry_name := "io.github.acme/search",
    install_method := "stdio", command := some "npx",
    env := [("API_KEY", "")] }

/-- Global state with the single installed server `mysql` and no groups. -/
def c3State : GlobalState := { servers := [("mysql", mysqlServer)], groups := [] }

/-- Parsed global store document used for the load behaviour checks. -/
def sampleGlobalDoc : GlobalState := { servers := [("mysql", mysqlServer)], groups := [] }

/-- Local project manifest depending on `mysql`. -/
def sampleLocalManifest : LocalManifest :=
  { name := "proj", servers := [("mysql", "1.0.0")] }

/-- Local project state: the manifest plus the `mysql` server config file. -/
def sampleLocalState : LocalState :=
  { manifest := sampleLocalManifest, files := [("mysql", mysqlServer)] }

/-- Lockfile entry pinning `io.github.acme/search`. -/
def sampleLockEntry : ServerLockEntry :=
  { resolved := "io.github.acme/search", version := "1.0.0",
    registryMetadata := searchRegistryConfig, timestamp := "2026-01-01T00:00:00" }

/-- Lockfile with the single pinned server. -/
def sampleLockfile : ServerLockfile :=
  { lockfileVersion := 1, servers := [("search", sampleLockEntry)] }

/-- Group metadata sample. -/
def sampleGroupMetadata : GroupMetadata :=
  { name := "db", created_at := "t0", updated_at := "t0" }

/-- Manifest sample. -/
def sampleServerManifest : ServerManifest :=
  { name := "proj", servers := [("search", "1.0.0")] }

/-- The create-group / add-member / delete-group sequence on the global
manager (returns the delete_group result). -/
def globalGroupScenario (st : GlobalState) (s g now : String) : GlobalState × Bool :=
  let st1 := (GlobalConfigManager.create_group st g none now).1
  let st2 := (GlobalConfigManager.add_server_to_group st1 s g now).1
  GlobalConfigManager.delete_group st2 g

/-- The create-group / add-member / delete-group sequence on the local
manager. -/
def localGroupScenario (lst : LocalState) (s g : String) : Except String LocalState := do
  let lst1 ← LocalConfigManager.create_group lst g
  let lst2 ← LocalConfigManager.add_server_to_group lst1 s g
  LocalConfigManager.delete_group lst2 g

/-- The runtime config `adapt` produces for `ociFirstRegistryConfig`. -/
def c6AdaptResult : CPMRuntimeConfig :=
  { name := "search", registry_name := "io.github.acme/search",
    install_method := "stdio", command := some "npx",
    args := some ["-y", "io.github.acme/search-pkg"],
    env := [("API_KEY", "")],
    original_config := some ociFirstRegistryConfig }

/-! ## Dict lemmas -/

theorem dGet_dInsert_self {β : Type} (d : List (String × β)) (k : String) (v : β) :
    dGet (dInsert d k v) k = some v := by
  induction d with
  | nil => simp [dInsert, dGet]
  | cons kv rest ih =>
    by_cases h : kv.1 = k <;> simp [dInsert, dGet, h, ih]

theorem dGet_dInsert_ne {β : Type} (d : List (String × β)) {k k' : String} (v : β)
    (h : k' ≠ k) : dGet (dInsert d k v) k' = dGet d k' := by
  induction d with
  | nil => simp [dInsert, dGet, Ne.symm h]
  | cons kv rest ih =>
    obtain ⟨a, b⟩ := kv
    by_cases hk : a = k
    · subst hk
      simp [dInsert, dGet, Ne.symm h]
    · by_cases hk' : a = k' <;> simp [dInsert, dGet, hk, hk', ih, h]

theorem dInsert_of_dGet_none {β : Type} (d : List (String × β)) (k : String) (v : β)
    (h : dGet d k = none) : dInsert d k v = d ++ [(k, v)] := by
  induction d with
  | nil => simp [dInsert]
  | cons kv rest ih =>
    by_cases hk : kv.1 = k
    · simp [dGet, hk] at h
    · simp [dGet, hk] at h
      simp [dInsert, hk, ih h]

theorem dErase_append_of_dGet_none {β : Type} (d : List (String × β)) (k : String) (v : β)
    (h : dGet d k = none) : dErase (d ++ [(k, v)]) k = d := by
  induction d with
  | nil => simp [dErase]
  | cons kv rest ih =>
    by_cases hk : kv.1 = k
    · simp [dGet, hk] at h
    · simp [dGet, hk] at h
      simp [dErase, hk, ih h]

theorem dGet_dUpdateVal_self {β : Type} (d : List (String × β)) (k : String)
    (f : β → β) (v : β) (h : dGet d k = some v) :
    dGet (dUpdateVal d k f) k = some (f v) := by
  induction d with
  | nil => simp [dGet] at h
  | cons kv rest ih =>
    by_cases hk : kv.1 = k
    · simp [dGet, hk] at h
      simp [dUpdateVal, dGet, hk, h]
    · simp [dGet, hk] at h
      simp [dUpdateVal, dGet, hk, ih h]

theorem dGet_dUpdateVal_ne {β : Type} (d : List (String × β)) {k k' : String}
    (f : β → β) (h : k' ≠ k) : dGet (dUpdateVal d k f) k' = dGet d k' := by
  induction d with
  | nil => simp [dUpdateVal]
  | cons kv rest ih =>
    obtain ⟨a, b⟩ := kv
    by_cases hk : a = k
    · subst hk
      simp [dUpdateVal, dGet, Ne.symm h]
    · by_cases hk' : a = k' <;> simp [dUpdateVal, dGet, hk, hk', ih, h]

theorem dUpdateVal_keys {β : Type} (d : List (String × β)) (k : String) (f : β → β) :
    (dUpdateVal d k f).map Prod.fst = d.map Prod.fst := by
  induction d with
  | nil => rfl
  | cons kv rest ih =>
    by_cases hk : kv.1 = k <;> simp [dUpdateVal, hk, ih]

theorem dGet_map {β γ : Type} (d : List (String × β)) (g : β → γ) (k : String) :
    dGet (d.map (fun kv => (kv.1, g kv.2))) k = (dGet d k).map g := by
  induction d with
  | nil => rfl
  | cons kv rest ih =>
    by_cases hk : kv.1 = k <;> simp [dGet, hk, ih]

theorem map_value_keys {β γ : Type} (d : List (String × β)) (g : β → γ) :
    (d.map (fun kv => (kv.1, g kv.2))).map Prod.fst = d.map Prod.fst := by
  induction d with
  | nil => rfl
  | cons kv rest ih => simp [ih]

theorem dGet_mem {β : Type} (d : List (String × β)) (k : String) (v : β)
    (h : dGet d k = some v) : (k, v) ∈ d := by
  induction d with
  | nil => simp [dGet] at h
  | cons kv rest ih =>
    obtain ⟨a, b⟩ := kv
    by_cases hk : a = k
    · subst hk
      simp [dGet] at h
      subst h
      exact List.mem_cons_self _ _
    · simp [dGet, hk] at h
      exact List.mem_cons_of_mem _ (ih h)

theorem foldl_collect_eq {α β : Type} (P : α → Bool) (g : α → β) (l : List α)
    (acc : List β) :
    l.foldl (fun m a => if P a then m ++ [g a] else m) acc = acc ++ (l.filter P).map g := by
  induction l generalizing acc with
  | nil => simp
  | cons a rest ih =>
    by_cases h : P a <;> simp [List.filter_cons, h, ih]

/-! ## Serialization round-trip lemmas -/

theorem parseList_map_mem {α : Type} {p : Json → Option α} {f : α → Json} (l : List α)
    (h : ∀ a ∈ l, p (f a) = some a) : parseList p (l.map f) = some l := by
  induction l with
  | nil => rfl
  | cons a rest ih =>
    simp [parseList, h a (List.mem_cons_self a rest),
      ih (fun x hx => h x (List.mem_cons_of_mem a hx))]

theorem jList_ofList_mem {α : Type} {p : Json → Option α} {f : α → Json} (l : List α)
    (h : ∀ a ∈ l, p (f a) = some a) : jList p (jOfList f l) = some l := by
  simp [jOfList, jList, parseList_map_mem l h]

theorem parsePairs_map_mem {α : Type} {p : Json → Option α} {f : α → Json}
    (d : List (String × α)) (h : ∀ kv ∈ d, p (f kv.2) = some kv.2) :
    parsePairs p (d.map (fun kv => (kv.1, f kv.2))) = some d := by
  induction d with
  | nil => rfl
  | cons kv rest ih =>
    simp [parsePairs, h kv (List.mem_cons_self kv rest),
      ih (fun x hx => h x (List.mem_cons_of_mem kv hx))]

theorem jPairs_ofPairs_mem {α : Type} {p : Json → Option α} {f : α → Json}
    (d : List (String × α)) (h : ∀ kv ∈ d, p (f kv.2) = some kv.2) :
    jPairs p (jOfPairs f d) = some d := by
  simp [jOfPairs, jPairs, parsePairs_map_mem d h]

theorem jOptOf_ne_null {α : Type} (p : Json → Option α) (j : Json) (h : j ≠ Json.null) :
    jOptOf p j = (p j).map some := by
  cases j with
  | null => exact absurd rfl h
  | bool b => rfl
  | num n => rfl
  | str s => rfl
  | arr xs => rfl
  | obj kvs => rfl

theorem jOptOf_rt {α : Type} {p : Json → Option α} {f : α → Json}
    (hrt : ∀ a, p (f a) = some a) (hnn : ∀ a, f a ≠ Json.null) (o : Option α) :
    jOptOf p (jOfOpt f o) = some o := by
  cases o with
  | none => rfl
  | some a =>
    rw [show jOfOpt f (some a) = f a from rfl, jOptOf_ne_null p (f a) (hnn a), hrt a]
    rfl

theorem optStr_rt (o : Option String) : jOptOf jStr (jOfOpt Json.str o) = some o :=
  @jOptOf_rt String jStr Json.str (fun _ => rfl) (fun _ h => Json.noConfusion h) o

theorem listStr_rt (l : List String) : jList jStr (jOfList Json.str l) = some l :=
  jList_ofList_mem l (fun _ _ => rfl)

theorem optListStr_rt (o : Option (List String)) :
    jOptOf (jList jStr) (jOfOpt (jOfList Json.str) o) = some o :=
  jOptOf_rt listStr_rt (fun _ h => Json.noConfusion h) o

theorem pairsStr_rt (d : List (String × String)) :
    jPairs jStr (jOfPairs Json.str d) = some d :=
  jPairs_ofPairs_mem d (fun _ _ => rfl)

theorem optPairsStr_rt (o : Option (List (String × String))) :
    jOptOf (jPairs jStr) (jOfOpt (jOfPairs Json.str) o) = some o :=
  jOptOf_rt pairsStr_rt (fun _ h => Json.noConfusion h) o

theorem Input_rt (x : Input) : Input.model_validate x.model_dump = some x := by
  simp [Input.model_dump, Input.model_validate, optField, reqField, jlookup,
    optStr_rt, optListStr_rt, jBool]

theorem pairsInput_rt (d : List (String × Input)) :
    jPairs Input.model_validate (jOfPairs Input.model_dump d) = some d :=
  jPairs_ofPairs_mem d (fun kv _ => Input_rt kv.2)

theorem optPairsInput_rt (o : Option (List (String × Input))) :
    jOptOf (jPairs Input.model_validate) (jOfOpt (jOfPairs Input.model_dump) o) = some o :=
  jOptOf_rt pairsInput_rt (fun _ h => Json.noConfusion h) o

theorem KeyValueInput_rt (x : KeyValueInput) :
    KeyValueInput.model_validate x.model_dump = some x := by
  simp [KeyValueInput.model_dump, KeyValueInput.model_validate, optField, reqField,
    jlookup, optStr_rt, optListStr_rt, optPairsInput_rt, jBool, jStr]

theorem Argument_rt (x : Argument) : Argument.model_validate x.model_dump = some x := by
  simp [Argument.model_dump, Argument.model_validate, optField, reqField,
    jlookup, optStr_rt, optListStr_rt, optPairsInput_rt, jBool, jStr]

theorem Transport_rt (t : Transport) : Transport.model_validate t.model_dump = some t := by
  cases t <;> rfl

theorem RemoteTransport_rt (t : RemoteTransport) :
    RemoteTransport.model_validate t.model_dump = some t := by
  cases t <;> rfl

theorem Icon_rt (x : Icon) : Icon.model_validate x.model_dump = some x := by
  simp [Icon.model_dump, Icon.model_validate, optField, reqField, jlookup,
    optStr_rt, optListStr_rt, jStr]

theorem Repository_rt (x : Repository) :
    Repository.model_validate x.model_dump = some x := by
  simp [Repository.model_dump, Repository.model_validate, optField, reqField, jlookup,
    optStr_rt, jStr]

theorem optRepository_rt (o : Option Repository) :
    jOptOf Repository.model_validate (jOfOpt Repository.model_dump o) = some o :=
  jOptOf_rt Repository_rt (fun _ h => Json.noConfusion h) o

theorem listIcon_rt (l : List Icon) :
    jList Icon.model_validate (jOfList Icon.model_dump l) = some l :=
  jList_ofList_mem l (fun a _ => Icon_rt a)

theorem optListIcon_rt (o : Option (List Icon)) :
    jOptOf (jList Icon.model_validate) (jOfOpt (jOfList Icon.model_dump) o) = some o :=
  jOptOf_rt listIcon_rt (fun _ h => Json.noConfusion h) o

theorem listArgument_rt (l : List Argument) :
    jList Argument.model_validate (jOfList Argument.model_dump l) = some l :=
  jList_ofList_mem l (fun a _ => Argument_rt a)

theorem optListArgument_rt (o : Option (List Argument)) :
    jOptOf (jList Argument.model_validate) (jOfOpt (jOfList Argument.model_dump) o) = some o :=
  jOptOf_rt listArgument_rt (fun _ h => Json.noConfusion h) o

theorem listKeyValueInput_rt (l : List KeyValueInput) :
    jList KeyValueInput.model_validate (jOfList KeyValueInput.model_dump l) = some l :=
  jList_ofList_mem l (fun a _ => KeyValueInput_rt a)

theorem optListKeyValueInput_rt (o : Option (List KeyValueInput)) :
    jOptOf (jList KeyValueInput.model_validate)
      (jOfOpt (jOfList KeyValueInput.model_dump) o) = some o :=
  jOptOf_rt listKeyValueInput_rt (fun _ h => Json.noConfusion h) o

theorem Package_rt (x : Package) : Package.model_validate x.model_dump = some x := by
  simp [Package.model_dump, Package.model_validate, optField, reqField, jlookup,
    optStr_rt, optListArgument_rt, optListKeyValueInput_rt, Transport_rt, jStr]

theorem listPackage_rt (l : List Package) :
    jList Package.model_validate (jOfList Package.model_dump l) = some l :=
  jList_ofList_mem l (fun a _ => Package_rt a)

theorem optListPackage_rt (o : Option (List Package)) :
    jOptOf (jList Package.model_validate) (jOfOpt (jOfList Package.model_dump) o) = some o :=
  jOptOf_rt listPackage_rt (fun _ h => Json.noConfusion h) o

theorem listRemote_rt (l : List RemoteTransport) :
    jList RemoteTransport.model_validate (jOfList RemoteTransport.model_dump l) = some l :=
  jList_ofList_mem l (fun a _ => RemoteTransport_rt a)

theorem optListRemote_rt (o : Option (List RemoteTransport)) :
    jOptOf (jList RemoteTransport.model_validate)
      (jOfOpt (jOfList RemoteTransport.model_dump) o) = some o :=
  jOptOf_rt listRemote_rt (fun _ h => Json.noConfusion h) o

theorem MCPServerConfig_rt (x : MCPServerConfig) (h : validName x.name = true) :
    MCPServerConfig.model_validate x.model_dump = some x := by
  simp [MCPServerConfig.model_dump, MCPServerConfig.model_validate, schemaField,
    optField, reqField, jlookup, h, optStr_rt, optRepository_rt, optListIcon_rt,
    optListPackage_rt, optListRemote_rt, jStr]

theorem optMCP_rt (o : Option MCPServerConfig)
    (h : ∀ c, o = some c → validName c.name = true) :
    jOptOf MCPServerConfig.model_validate (jOfOpt MCPServerConfig.model_dump o) = some o := by
  cases o with
  | none => rfl
  | some c =>
    rw [show jOfOpt MCPServerConfig.model_dump (some c) = c.model_dump from rfl,
      jOptOf_ne_null _ _ (fun hn => Json.noConfusion hn),
      MCPServerConfig_rt c (h c rfl)]
    rfl

theorem CPMRuntimeConfig_rt (x : CPMRuntimeConfig) (h : x.wfNames = true) :
    CPMRuntimeConfig.model_validate x.model_dump = some x := by
  have hoc : ∀ c, x.original_config = some c → validName c.name = true := by
    intro c hc
    simpa [CPMRuntimeConfig.wfNames, hc] using h
  simp [CPMRuntimeConfig.model_dump, CPMRuntimeConfig.model_validate, optField,
    reqField, jlookup, optStr_rt, optListStr_rt, optPairsStr_rt, pairsStr_rt,
    listStr_rt, optMCP_rt x.original_config hoc, jStr]

theorem ServerManifest_rt (x : ServerManifest) :
    ServerManifest.model_validate x.model_dump = some x := by
  simp [ServerManifest.model_dump, ServerManifest.model_validate, optField, reqField,
    jlookup, optStr_rt, pairsStr_rt, jStr,
    jPairs_ofPairs_mem x.groups (fun kv _ => listStr_rt kv.2),
    jPairs_ofPairs_mem x.config (fun kv _ => pairsStr_rt kv.2)]

theorem ServerLockEntry_rt (x : ServerLockEntry)
    (h : validName x.registryMetadata.name = true) :
    ServerLockEntry.model_validate x.model_dump = some x := by
  simp [ServerLockEntry.model_dump, ServerLockEntry.model_validate, optField, reqField,
    jlookup, optStr_rt, MCPServerConfig_rt x.registryMetadata h, jStr]

theorem ServerLockfile_rt (x : ServerLockfile) (h : x.wfNames = true) :
    ServerLockfile.model_validate x.model_dump = some x := by
  have hm : ∀ kv ∈ x.servers,
      ServerLockEntry.model_validate (ServerLockEntry.model_dump kv.2) = some kv.2 := by
    intro kv hkv
    have : validName kv.2.registryMetadata.name = true := by
      simpa using (List.all_eq_true.mp h) kv hkv
    exact ServerLockEntry_rt kv.2 this
  simp [ServerLockfile.model_dump, ServerLockfile.model_validate, optField, reqField,
    jlookup, jInt, jPairs_ofPairs_mem x.servers hm]

theorem GroupMetadata_rt (x : GroupMetadata) :
    GroupMetadata.model_validate x.model_dump = some x := by
  simp [GroupMetadata.model_dump, GroupMetadata.model_validate, optField, reqField,
    jlookup, optStr_rt, listStr_rt, jStr]

/-! ## Semver comparison lemmas -/

theorem ltBool_of_major_lt (a b : SemanticVersion) (h : a.major < b.major) :
    SemanticVersion.ltBool a b = true := by
  simp [SemanticVersion.ltBool, Nat.ne_of_lt h, h]

/-! ## Sort-key lemmas (registry version ordering) -/

theorem keyLt_irrefl (a : List Nat) : keyLt a a = false := by
  induction a with
  | nil => rfl
  | cons x xs ih => simp [keyLt, ih]


theorem keyLt_cons_iff (x y : Nat) (xs ys : List Nat) :
    keyLt (x :: xs) (y :: ys) = true ↔ x < y ∨ (x = y ∧ keyLt xs ys = true) := by
  simp only [keyLt]
  rcases Nat.lt_trichotomy x y with h | h | h
  · simp [h]
  · simp [h, Nat.lt_irrefl]
  · simp [Nat.lt_asymm h, h, Nat.ne_of_gt h]

theorem keyLt_trans {a b c : List Nat} (h1 : keyLt a b = true) (h2 : keyLt b c = true) :
    keyLt a c = true := by
  induction a generalizing b c with
  | nil =>
    cases b with
    | nil => simp [keyLt] at h1
    | cons y ys =>
      cases c with
      | nil => simp [keyLt] at h2
      | cons z zs => simp [keyLt]
  | cons x xs ih =>
    cases b with
    | nil => simp [keyLt] at h1
    | cons y ys =>
      cases c with
      | nil => simp [keyLt] at h2
      | cons z zs =>
        rw [keyLt_cons_iff] at h1 h2 ⊢
        rcases h1 with h1 | ⟨h1e, h1k⟩
        · rcases h2 with h2 | ⟨h2e, h2k⟩
          · exact Or.inl (Nat.lt_trans h1 h2)
          · exact Or.inl (h2e ▸ h1)
        · rcases h2 with h2 | ⟨h2e, h2k⟩
          · exact Or.inl (h1e ▸ h2)
          · exact Or.inr ⟨h1e.trans h2e, ih h1k h2k⟩

theorem keyLt_not_of_gt {a b c : List Nat} (hab : keyLt a b = true)
    (hnac : keyLt a c = false) : keyLt b c = false := by
  cases h : keyLt b c with
  | false => rfl
  | true =>
    rw [keyLt_trans hab h] at hnac
    exact Bool.noConfusion hnac

/-- Head-maximality: whenever the list is nonempty, its head's key is not
strictly below any member's key. -/
def IsHeadMax {α : Type} (key : α → List Nat) (l : List α) : Prop :=
  ∀ h t, l = h :: t → ∀ z ∈ l, keyLt (key h) (key z) = false

theorem insertDescBy_mem {α : Type} (key : α → List Nat) (x : α) (l : List α) (z : α) :
    z ∈ insertDescBy key x l ↔ z = x ∨ z ∈ l := by
  induction l with
  | nil => simp [insertDescBy]
  | cons y ys ih =>
    by_cases h : keyLt (key y) (key x) = true
    · simp [insertDescBy, h, List.mem_cons] <;> tauto
    · simp only [Bool.not_eq_true] at h
      simp [insertDescBy, h, List.mem_cons, ih] <;> tauto

theorem insertDescBy_headMax {α : Type} (key : α → List Nat) (x : α) (l : List α)
    (hl : IsHeadMax key l) : IsHeadMax key (insertDescBy key x l) := by
  cases l with
  | nil =>
    intro h t he z hz
    simp only [insertDescBy] at he hz
    rcases List.cons.injEq .. ▸ he with ⟨rfl, rfl⟩
    simp only [List.mem_singleton] at hz
    subst hz
    exact keyLt_irrefl _
  | cons y ys =>
    by_cases hcmp : keyLt (key y) (key x) = true
    · intro h t he z hz
      simp only [insertDescBy, hcmp, if_true] at he hz
      rcases List.cons.injEq .. ▸ he with ⟨rfl, rfl⟩
      simp only [List.mem_cons] at hz
      rcases hz with rfl | rfl | hz
      · exact keyLt_irrefl _
      · exact keyLt_not_of_gt hcmp (keyLt_irrefl _)
      · exact keyLt_not_of_gt hcmp (hl y ys rfl z (List.mem_cons_of_mem y hz))
    · intro h t he z hz
      rw [Bool.not_eq_true] at hcmp
      simp only [insertDescBy, hcmp, Bool.false_eq_true, if_false] at he hz
      rcases List.cons.injEq .. ▸ he with ⟨rfl, rfl⟩
      simp only [List.mem_cons] at hz
      rcases hz with rfl | hz
      · exact keyLt_irrefl _
      · rw [insertDescBy_mem] at hz
        rcases hz with rfl | hz
        · exact hcmp
        · exact hl y ys rfl z (List.mem_cons_of_mem y hz)

theorem sortDescBy_mem {α : Type} (key : α → List Nat) (l : List α) (z : α) :
    z ∈ sortDescBy key l ↔ z ∈ l := by
  have main : ∀ (l : List α) (acc : List α),
      z ∈ l.foldl (fun acc x => insertDescBy key x acc) acc ↔ z ∈ acc ∨ z ∈ l := by
    intro l
    induction l with
    | nil => simp
    | cons x xs ih =>
      intro acc
      rw [List.foldl_cons, ih, insertDescBy_mem]
      simp [List.mem_cons]
      tauto
  simpa [sortDescBy] using main l []

theorem sortDescBy_headMax {α : Type} (key : α → List Nat) (l : List α) :
    IsHeadMax key (sortDescBy key l) := by
  have main : ∀ (l : List α) (acc : List α), IsHeadMax key acc →
      IsHeadMax key (l.foldl (fun acc x => insertDescBy key x acc) acc) := by
    intro l
    induction l with
    | nil => intro acc h; exact h
    | cons x xs ih =>
      intro acc h
      exact ih _ (insertDescBy_headMax key x acc h)
  refine main l [] ?_
  intro h t he z hz
  simp at he

theorem sortDescBy_ne_nil {α : Type} (key : α → List Nat) (l : List α) (hl : l ≠ []) :
    sortDescBy key l ≠ [] := by
  obtain ⟨x, hx⟩ := List.exists_mem_of_ne_nil l hl
  intro hs
  have hmem := (sortDescBy_mem key l x).mpr hx
  rw [hs] at hmem
  exact List.not_mem_nil x hmem

theorem findExactVersion_some {v : String} {l : List RegEntry} {e : RegEntry}
    (h : findExactVersion v l = some e) : e ∈ l ∧ e.version = some v := by
  induction l with
  | nil => simp [findExactVersion] at h
  | cons x xs ih =>
    by_cases hx : x.version = some v
    · simp [findExactVersion, hx] at h
      subst h
      exact ⟨List.mem_cons_self x xs, hx⟩
    · simp [findExactVersion, hx] at h
      obtain ⟨hmem, hv⟩ := ih h
      exact ⟨List.mem_cons_of_mem x hmem, hv⟩

theorem findExactVersion_none {v : String} {l : List RegEntry}
    (h : ∀ e ∈ l, e.version ≠ some v) : findExactVersion v l = none := by
  induction l with
  | nil => rfl
  | cons x xs ih =>
    simp [findExactVersion, h x (List.mem_cons_self x xs),
      ih (fun e he => h e (List.mem_cons_of_mem x he))]

theorem findExactVersion_isSome {v : String} {l : List RegEntry}
    (e : RegEntry) (he : e ∈ l) (hv : e.version = some v) :
    ∃ r, findExactVersion v l = some r := by
  induction l with
  | nil => simp at he
  | cons x xs ih =>
    by_cases hx : x.version = some v
    · exact ⟨x, by simp [findExactVersion, hx]⟩
    · rcases List.mem_cons.mp he with hex | hex
      · subst hex
        exact absurd hv hx
      · obtain ⟨r, hr⟩ := ih hex
        exact ⟨r, by simp [findExactVersion, hx, hr]⟩

/-! ## Missing-variable characterizations -/

theorem get_missing_vars_eq (c : CPMRuntimeConfig) :
    get_missing_vars c = (c.env.filter (fun kv => placeholderShaped kv.2)).map Prod.fst := by
  by_cases h : c.env = []
  · simp [get_missing_vars, h]
  · rw [get_missing_vars, if_neg h,
      foldl_collect_eq (fun kv => placeholderShaped kv.2) (fun kv => kv.1) c.env []]
    rfl

theorem mem_get_missing_vars (c : CPMRuntimeConfig) (v : String) :
    v ∈ get_missing_vars c ↔
      ∃ kv ∈ c.env, kv.1 = v ∧ placeholderShaped kv.2 = true := by
  rw [get_missing_vars_eq]
  simp only [List.mem_map, List.mem_filter]
  constructor
  · rintro ⟨kv, ⟨hmem, hph⟩, hfst⟩
    exact ⟨kv, hmem, hfst, hph⟩
  · rintro ⟨kv, hmem, hfst, hph⟩
    exact ⟨kv, ⟨hmem, hph⟩, hfst⟩

theorem get_missing_required_vars_eq (c : CPMRuntimeConfig) (oc : MCPServerConfig)
    (package : Package) (rest : List Package)
    (h1 : c.original_config = some oc) (h2 : oc.packages = some (package :: rest)) :
    get_missing_required_vars c =
      ((package.environmentVariables.getD []).filter
        (fun ev => ev.isRequired && !pyTruthyOptStr (dGet c.env ev.name))).map
        (fun ev => ev.name) := by
  simp only [get_missing_required_vars, h1, h2]
  rw [foldl_collect_eq (fun ev => ev.isRequired && !pyTruthyOptStr (dGet c.env ev.name))
    (fun ev => ev.name) (package.environmentVariables.getD []) []]
  rfl

theorem mem_get_missing_required_vars (c : CPMRuntimeConfig) (v : String)
    (h : v ∈ get_missing_required_vars c) :
    pyTruthyOptStr (dGet c.env v) = false := by
  rcases hoc : c.original_config with _ | oc
  · simp only [get_missing_required_vars, hoc] at h
    exact absurd h (List.not_mem_nil v)
  · rcases hpk : oc.packages with _ | pks
    · simp only [get_missing_required_vars, hoc, hpk] at h
      exact absurd h (List.not_mem_nil v)
    · rcases pks with _ | ⟨package, rest⟩
      · simp only [get_missing_required_vars, hoc, hpk] at h
        exact absurd h (List.not_mem_nil v)
      · rw [get_missing_required_vars_eq c oc package rest hoc hpk] at h
        simp only [List.mem_map, List.mem_filter] at h
        obtain ⟨ev, ⟨_, hcond⟩, hname⟩ := h
        rw [Bool.and_eq_true] at hcond
        have hfalse := hcond.2
        rw [Bool.not_eq_true'] at hfalse
        rw [← hname]
        exact hfalse

theorem get_missing_required_vars_nil (c : CPMRuntimeConfig) (oc : MCPServerConfig)
    (package : Package) (rest : List Package)
    (h1 : c.original_config = some oc) (h2 : oc.packages = some (package :: rest))
    (h3 : ∀ ev ∈ package.environmentVariables.getD [],
      ev.isRequired = true → pyTruthyOptStr (dGet c.env ev.name) = true) :
    get_missing_required_vars c = [] := by
  rw [get_missing_required_vars_eq c oc package rest h1 h2]
  rw [List.map_eq_nil, List.filter_eq_nil]
  intro ev hev
  by_cases hreq : ev.isRequired = true
  · simp [hreq, h3 ev hev hreq]
  · rw [Bool.not_eq_true] at hreq
    simp [hreq]

theorem get_missing_vars_nil (c : CPMRuntimeConfig)
    (h : ∀ kv ∈ c.env, placeholderShaped kv.2 = false) :
    get_missing_vars c = [] := by
  rw [get_missing_vars_eq, List.map_eq_nil, List.filter_eq_nil]
  intro kv hkv
  simp [h kv hkv]

/-! ## Group-tag helper lemmas -/

theorem add_remove_group (c : CPMRuntimeConfig) (g : String) (hg : g ∉ c.groups) :
    (c.add_group g).remove_group g = c := by
  rw [CPMRuntimeConfig.add_group, if_neg hg, CPMRuntimeConfig.remove_group]
  simp only [List.mem_append, List.mem_singleton, or_true, if_true]
  rw [List.erase_append_right _ hg, List.erase_cons_head, List.append_nil]

theorem dInsert_dInsert {β : Type} (d : List (String × β)) (k : String) (v1 v2 : β) :
    dInsert (dInsert d k v1) k v2 = dInsert d k v2 := by
  induction d with
  | nil => simp [dInsert]
  | cons kv rest ih =>
    obtain ⟨a, b⟩ := kv
    by_cases hk : a = k <;> simp [dInsert, hk, ih]

/-! ## Claim theorems -/

/-- C5 counterexample: the claim "the parsed `latest` sentinel compares
strictly greater than every concrete version accepted by the parser" fails:
`1000000.0.0` is accepted by the semver parser and the sentinel
(`major = 999999`) compares strictly BELOW it. -/
theorem c5_counterexample :
    SemanticVersion.ofString "latest" = some ⟨999999, 0, 0, none, none⟩ ∧
    parseSemverString "1000000.0.0" = some ⟨1000000, 0, 0, none, none⟩ ∧
    SemanticVersion.ltBool ⟨999999, 0, 0, none, none⟩ ⟨1000000, 0, 0, none, none⟩ = true := by
  refine ⟨rfl, by decide, by decide⟩

/-- C5 (corrected): `latest` and `linked` parse to the sentinel
`⟨999999, 0, 0⟩`, which compares strictly greater than every concrete version
the parser accepts whose major component is below 999999 (but not beyond
that bound). -/
theorem c5_sentinel_above_concrete (s : String) (sv : SemanticVersion)
    (h1 : parseSemverString s = some sv) (h2 : sv.major < 999999) :
    SemanticVersion.ofString "latest" = some ⟨999999, 0, 0, none, none⟩ ∧
    SemanticVersion.ofString "linked" = some ⟨999999, 0, 0, none, none⟩ ∧
    SemanticVersion.ltBool sv ⟨999999, 0, 0, none, none⟩ = true :=
  ⟨rfl, rfl, ltBool_of_major_lt sv ⟨999999, 0, 0, none, none⟩ h2⟩

/-- C5 witness: the sentinel dominates the concrete version `1.2.3`. -/
theorem c5_sentinel_witness :
    SemanticVersion.ofString "latest" = some ⟨999999, 0, 0, none, none⟩ ∧
    SemanticVersion.ofString "linked" = some ⟨999999, 0, 0, none, none⟩ ∧
    SemanticVersion.ltBool ⟨1, 2, 3, none, none⟩ ⟨999999, 0, 0, none, none⟩ = true :=
  c5_sentinel_above_concrete "1.2.3" ⟨1, 2, 3, none, none⟩ (by decide) (by decide)

/-- The selection loop returns a member satisfying the stdio test. -/
theorem findStdioPackage_spec (l : List Package) (q : Package)
    (h : findStdioPackage l = some q) : q ∈ l ∧ q.transport.isStdio = true := by
  induction l with
  | nil => simp [findStdioPackage] at h
  | cons x xs ih =>
    by_cases hx : x.transport.isStdio = true
    · simp [findStdioPackage, hx] at h
      subst h
      exact ⟨List.mem_cons_self x xs, hx⟩
    · rw [Bool.not_eq_true] at hx
      simp [findStdioPackage, hx] at h
      obtain ⟨hm, hp⟩ := ih h
      exact ⟨List.mem_cons_of_mem x hm, hp⟩

/-- The selection loop succeeds when some member passes the stdio test. -/
theorem findStdioPackage_isSome (l : List Package) (p : Package)
    (hmem : p ∈ l) (hstdio : p.transport.isStdio = true) :
    ∃ q, findStdioPackage l = some q := by
  induction l with
  | nil => simp at hmem
  | cons x xs ih =>
    by_cases hx : x.transport.isStdio = true
    · exact ⟨x, by simp [findStdioPackage, hx]⟩
    · rw [Bool.not_eq_true] at hx
      rcases List.mem_cons.mp hmem with rfl | hmem'
      · rw [hstdio] at hx
        exact Bool.noConfusion hx
      · obtain ⟨q, hq⟩ := ih hmem'
        exact ⟨q, by simp [findStdioPackage, hx, hq]⟩

/-- The selection loop fails when no member passes the stdio test. -/
theorem findStdioPackage_none (l : List Package)
    (h : ∀ r ∈ l, r.transport.isStdio = false) : findStdioPackage l = none := by
  induction l with
  | nil => rfl
  | cons x xs ih =>
    simp [findStdioPackage, h x (List.mem_cons_self x xs),
      ih (fun r hr => h r (List.mem_cons_of_mem x hr))]

/-- C6: package selection prefers stdio transport — whenever some package in
the list has stdio transport, `_select_best_package` returns a stdio package
from the list; when no package does, it returns the first declared package;
and on the concrete oci-first/npm-stdio-second registry config, `adapt`
produces the npm command line. -/
theorem c6_select_best_package (packages : List Package) (p : Package)
    (hmem : p ∈ packages) (hstdio : p.transport.isStdio = true) :
    (∃ q, select_best_package packages = .ok q ∧ q.transport.isStdio = true ∧ q ∈ packages) ∧
    (∀ (hd : Package) (tl : List Package),
      (∀ r ∈ hd :: tl, r.transport.isStdio = false) →
      select_best_package (hd :: tl) = .ok hd) ∧
    (adapt ociFirstRegistryConfig none [] = .ok c6AdaptResult ∧
      c6AdaptResult.command = some "npx" ∧
      c6AdaptResult.args = some ["-y", "io.github.acme/search-pkg"] ∧
      c6AdaptResult.install_method = "stdio") := by
  refine ⟨?_, ?_, by decide, rfl, rfl, rfl⟩
  · obtain ⟨q, hq⟩ := findStdioPackage_isSome packages p hmem hstdio
    obtain ⟨hqm, hqs⟩ := findStdioPackage_spec packages q hq
    refine ⟨q, ?_, hqs, hqm⟩
    cases packages with
    | nil => simp at hmem
    | cons hd tl => simp [select_best_package, hq]
  · intro hd tl hall
    simp [select_best_package, findStdioPackage_none (hd :: tl) hall]

/-- C6 witness: a singleton npm/stdio package list. -/
theorem c6_witness :
    (∃ q, select_best_package [npmSearchPackage] = .ok q ∧ q.transport.isStdio = true ∧
      q ∈ [npmSearchPackage]) ∧
    (∀ (hd : Package) (tl : List Package),
      (∀ r ∈ hd :: tl, r.transport.isStdio = false) →
      select_best_package (hd :: tl) = .ok hd) ∧
    (adapt ociFirstRegistryConfig none [] = .ok c6AdaptResult ∧
      c6AdaptResult.command = some "npx" ∧
      c6AdaptResult.args = some ["-y", "io.github.acme/search-pkg"] ∧
      c6AdaptResult.install_method = "stdio") :=
  c6_select_best_package [npmSearchPackage] npmSearchPackage (by simp) rfl


/-- C7: adapting a registry server whose single package is npm with stdio
transport and exactly one declared required variable without default, with
no overrides, yields `command = "npx"`, `args = ["-y", identifier]`, an env
map carrying the variable with the empty string (the key is present), and
`get_missing_required_vars` reporting exactly that variable. -/
theorem c7_adapt_npm_required (cfg : MCPServerConfig) (pkg : Package) (ev : KeyValueInput)
    (hpk : cfg.packages = some [pkg])
    (hreg : pkg.registryType = "npm")
    (htr : pkg.transport = Transport.stdio)
    (hhint : pkg.runtimeHint = none)
    (hargs : pkg.packageArguments = none)
    (hev : pkg.environmentVariables = some [ev])
    (hreq : ev.isRequired = true)
    (hdef : ev.default = none) :
    ∃ rc, adapt cfg none [] = .ok rc ∧
      rc.command = some "npx" ∧
      rc.args = some ["-y", pkg.identifier] ∧
      rc.env = [(ev.name, "")] ∧
      rc.install_method = "stdio" ∧
      get_missing_required_vars rc = [ev.name] := by
  have hsel : select_best_package [pkg] = .ok pkg := by
    simp [select_best_package, findStdioPackage, htr, Transport.isStdio]
  have hlow : pyLower "npm" = "npm" := by decide
  have hgen : generate_command pkg = .ok ("npx", ["-y", pkg.identifier]) := by
    simp [generate_command, hreg, hlow, hhint, hargs, pyOrStr]
  have hext : extract_env_vars pkg [] = [(ev.name, "")] := by
    simp [extract_env_vars, hev, hdef, dInsert]
  have hadapt : adapt cfg none [] = .ok
      { name := lastComponent cfg.name, registry_name := cfg.name,
        install_method := "stdio", command := some "npx",
        args := some ["-y", pkg.identifier], env := [(ev.name, "")],
        original_config := some cfg } := by
    simp [adapt, pyTruthyOptStr, hpk, adapt_package, hsel, hgen, hext]
  refine ⟨_, hadapt, rfl, rfl, rfl, rfl, ?_⟩
  simp [get_missing_required_vars, hpk, hev, hreq, dGet, pyTruthyOptStr]

/-- C7 witness: the concrete `io.github.acme/search` scenario. -/
theorem c7_witness :
    ∃ rc, adapt searchRegistryConfig none [] = .ok rc ∧
      rc.command = some "npx" ∧
      rc.args = some ["-y", npmSearchPackage.identifier] ∧
      rc.env = [(apiKeyVar.name, "")] ∧
      rc.install_method = "stdio" ∧
      get_missing_required_vars rc = [apiKeyVar.name] :=
  c7_adapt_npm_required searchRegistryConfig npmSearchPackage apiKeyVar
    rfl rfl rfl rfl rfl rfl rfl rfl

/-- C10 counterexample: with `env = {"API_KEY": ""}` the emitted client shape
still carries an `env` key (bound to the empty object); the claim that the
key is absent whenever no value is non-empty fails. -/
theorem c10_counterexample :
    JSONClientManager.to_client_format emptyEnvValueConfig =
      Json.obj [("command", .str "npx"), ("args", .arr []), ("env", .obj [])] ∧
    YAMLClientManager.to_client_format emptyEnvValueConfig =
      Json.obj [("command", .str "npx"), ("args", .arr []), ("env", .obj [])] := by
  exact ⟨rfl, rfl⟩

/-- C10 (corrected): for a stdio-kind runtime config both base client
adapters drop every env entry with an empty-string value; the `env` key is
present exactly when the internal env dict is non-empty (so it appears as an
empty object when every value was empty, rather than being omitted). -/
theorem c10_env_filter (c : CPMRuntimeConfig) (hcmd : pyTruthyOptStr c.command = true) :
    ∃ kvs, JSONClientManager.to_client_format c = Json.obj kvs ∧
      YAMLClientManager.to_client_format c = Json.obj kvs ∧
      (c.env = [] → jlookup "env" kvs = none) ∧
      (c.env ≠ [] → jlookup "env" kvs =
        some (Json.obj ((c.env.filter (fun kv => kv.2 ≠ "")).map
          (fun kv => (kv.1, Json.str kv.2))))) := by
  by_cases he : c.env = []
  · refine ⟨[("command", .str (c.command.getD "")),
            ("args", jOfList Json.str (c.args.getD []))], ?_, ?_, ?_, ?_⟩
    · simp [JSONClientManager.to_client_format, hcmd, he]
    · simp [YAMLClientManager.to_client_format, hcmd, he]
    · intro _
      simp [jlookup]
    · intro hne
      exact absurd he hne
  · refine ⟨[("command", .str (c.command.getD "")),
            ("args", jOfList Json.str (c.args.getD [])),
            ("env", Json.obj ((c.env.filter (fun kv => kv.2 ≠ "")).map
              (fun kv => (kv.1, Json.str kv.2))))], ?_, ?_, ?_, ?_⟩
    · simp [JSONClientManager.to_client_format, hcmd, he]
    · simp [YAMLClientManager.to_client_format, hcmd, he]
    · intro h0
      exact absurd h0 he
    · intro _
      simp [jlookup]

/-- C10 witness: the `env = {"API_KEY": ""}` config. -/
theorem c10_witness :
    ∃ kvs, JSONClientManager.to_client_format emptyEnvValueConfig = Json.obj kvs ∧
      YAMLClientManager.to_client_format emptyEnvValueConfig = Json.obj kvs ∧
      (emptyEnvValueConfig.env = [] → jlookup "env" kvs = none) ∧
      (emptyEnvValueConfig.env ≠ [] → jlookup "env" kvs =
        some (Json.obj ((emptyEnvValueConfig.env.filter (fun kv => kv.2 ≠ "")).map
          (fun kv => (kv.1, Json.str kv.2))))) :=
  c10_env_filter emptyEnvValueConfig rfl

/-- C4 counterexample: with `1.0.0-alpha` listed before `1.0.0`, the
`latest` (and unspecified-version) lookup returns the prerelease entry, even
though full semver ranks `1.0.0-alpha` strictly below `1.0.0` — the sort key
strips the prerelease, leaving two equal keys and the original order. -/
theorem c4_counterexample :
    get_server [entryAlpha, entryRelease] "io.github.acme/search" (some "latest") =
      .ok entryAlpha ∧
    get_server [entryAlpha, entryRelease] "io.github.acme/search" none = .ok entryAlpha ∧
    parseSemverString "1.0.0-alpha" = some ⟨1, 0, 0, some "alpha", none⟩ ∧
    parseSemverString "1.0.0" = some ⟨1, 0, 0, none, none⟩ ∧
    SemanticVersion.ltBool ⟨1, 0, 0, some "alpha", none⟩ ⟨1, 0, 0, none, none⟩ = true ∧
    entryKey entryAlpha = entryKey entryRelease := by
  refine ⟨by decide, by decide, by decide, by decide, by decide, by decide⟩

/-- C4 (corrected): name-filtered entries are ordered descending by the
numeric `major.minor.patch` key only (prerelease/build stripped, ties keeping
registry order); `latest`/unspecified returns a name-matching entry whose
numeric key no other matching entry strictly exceeds; an explicit version is
returned iff some matching entry's version string equals it exactly,
otherwise the call fails with the version-not-found error, which is distinct
from the unknown-name error. -/
theorem c4_version_selection (servers : List RegEntry) (server_name v : String)
    (hv1 : v ≠ "") (hv2 : v ≠ "latest") :
    (servers.filter (fun e => e.name = some server_name) = [] →
      get_server servers server_name (some v) = .error (.serverNotFound server_name) ∧
      get_server servers server_name none = .error (.serverNotFound server_name)) ∧
    (∀ e, get_server servers server_name (some v) = .ok e →
      e.version = some v ∧ e ∈ servers ∧ e.name = some server_name) ∧
    ((∃ e ∈ servers, e.name = some server_name ∧ e.version = some v) →
      ∃ r, get_server servers server_name (some v) = .ok r ∧ r.version = some v) ∧
    ((∃ e ∈ servers, e.name = some server_name) →
      (∀ e ∈ servers, e.name = some server_name → e.version ≠ some v) →
      get_server servers server_name (some v) = .error (.versionNotFound server_name v)) ∧
    ((∃ e ∈ servers, e.name = some server_name) →
      ∃ r, get_server servers server_name none = .ok r ∧ r ∈ servers ∧
        r.name = some server_name ∧
        ∀ e2 ∈ servers, e2.name = some server_name →
          keyLt (entryKey r) (entryKey e2) = false) := by
  have hmem_filter : ∀ e : RegEntry,
      e ∈ servers.filter (fun e => e.name = some server_name) ↔
        e ∈ servers ∧ e.name = some server_name := by
    intro e
    simp [List.mem_filter]
  refine ⟨?_, ?_, ?_, ?_, ?_⟩
  · intro hnil
    have hemp : (servers.filter (fun e => e.name = some server_name)).isEmpty = true := by
      simp [hnil]
    constructor <;> simp [get_server, hemp]
  · intro e hok
    rw [get_server] at hok
    by_cases hemp : (servers.filter (fun e => e.name = some server_name)).isEmpty = true
    · rw [if_pos hemp] at hok
      exact absurd hok (by simp)
    · rw [if_neg hemp] at hok
      simp only [ne_eq, hv1, hv2, not_false_iff, and_self, if_true] at hok
      rcases hfind : findExactVersion v
          (sortDescBy entryKey (servers.filter (fun e => e.name = some server_name)))
        with _ | r
      · rw [hfind] at hok
        exact absurd hok (by simp)
      · rw [hfind] at hok
        have hre : r = e := by
          simpa using hok
        subst hre
        obtain ⟨hmem, hver⟩ := findExactVersion_some hfind
        rw [sortDescBy_mem] at hmem
        rw [hmem_filter] at hmem
        exact ⟨hver, hmem.1, hmem.2⟩
  · rintro ⟨e, hes, hename, hever⟩
    have hemem : e ∈ servers.filter (fun e => e.name = some server_name) :=
      (hmem_filter e).mpr ⟨hes, hename⟩
    have hemp : (servers.filter (fun e => e.name = some server_name)).isEmpty = false := by
      rcases hfe : (servers.filter (fun e => e.name = some server_name)) with _ | _
      · rw [hfe] at hemem
        exact absurd hemem (List.not_mem_nil e)
      · rw [hfe]
        rfl
    have hsmem : e ∈ sortDescBy entryKey (servers.filter (fun e => e.name = some server_name)) :=
      (sortDescBy_mem _ _ _).mpr hemem
    obtain ⟨r, hr⟩ := findExactVersion_isSome e hsmem hever
    obtain ⟨_, hrver⟩ := findExactVersion_some hr
    refine ⟨r, ?_, hrver⟩
    rw [get_server, if_neg (by simp [hemp])]
    simp only [ne_eq, hv1, hv2, not_false_iff, and_self, if_true, hr]
  · rintro ⟨e, hes, hename⟩ hnover
    have hemem : e ∈ servers.filter (fun e => e.name = some server_name) :=
      (hmem_filter e).mpr ⟨hes, hename⟩
    have hemp : (servers.filter (fun e => e.name = some server_name)).isEmpty = false := by
      rcases hfe : (servers.filter (fun e => e.name = some server_name)) with _ | _
      · rw [hfe] at hemem
        exact absurd hemem (List.not_mem_nil e)
      · rw [hfe]
        rfl
    have hfind : findExactVersion v
        (sortDescBy entryKey (servers.filter (fun e => e.name = some server_name))) = none := by
      apply findExactVersion_none
      intro e2 he2
      rw [sortDescBy_mem] at he2
      rw [hmem_filter] at he2
      exact hnover e2 he2.1 he2.2
    rw [get_server, if_neg (by simp [hemp])]
    simp only [ne_eq, hv1, hv2, not_false_iff, and_self, if_true, hfind]
  · rintro ⟨e, hes, hename⟩
    have hemem : e ∈ servers.filter (fun e => e.name = some server_name) :=
      (hmem_filter e).mpr ⟨hes, hename⟩
    have hfne : servers.filter (fun e => e.name = some server_name) ≠ [] := by
      intro hfe
      rw [hfe] at hemem
      exact absurd hemem (List.not_mem_nil e)
    have hemp : (servers.filter (fun e => e.name = some server_name)).isEmpty = false := by
      rcases hfe : (servers.filter (fun e => e.name = some server_name)) with _ | _
      · exact absurd hfe hfne
      · rw [hfe]
        rfl
    have hsne : sortDescBy entryKey (servers.filter (fun e => e.name = some server_name)) ≠ [] :=
      sortDescBy_ne_nil _ _ hfne
    rcases hso : sortDescBy entryKey (servers.filter (fun e => e.name = some server_name))
      with _ | ⟨r, t⟩
    · exact absurd hso hsne
    · have hrmem : r ∈ sortDescBy entryKey (servers.filter (fun e => e.name = some server_name)) := by
        rw [hso]
        exact List.mem_cons_self r t
      have hrmem' := (sortDescBy_mem _ _ _).mp hrmem
      rw [hmem_filter] at hrmem'
      refine ⟨r, ?_, hrmem'.1, hrmem'.2, ?_⟩
      · rw [get_server, if_neg (by simp [hemp])]
        simp [hso]
      · intro e2 he2s he2name
        have he2mem : e2 ∈ sortDescBy entryKey
            (servers.filter (fun e => e.name = some server_name)) :=
          (sortDescBy_mem _ _ _).mpr ((hmem_filter e2).mpr ⟨he2s, he2name⟩)
        exact sortDescBy_headMax entryKey
          (servers.filter (fun e => e.name = some server_name)) r t hso e2 he2mem

/-- C4 witness: the two-entry registry with an explicit `1.0.0` request. -/
theorem c4_witness :
    (([entryAlpha, entryRelease].filter
        (fun e => e.name = some ("io.github.acme/search" : String))) = [] →
      get_server [entryAlpha, entryRelease] "io.github.acme/search" (some "1.0.0") =
        .error (.serverNotFound "io.github.acme/search") ∧
      get_server [entryAlpha, entryRelease] "io.github.acme/search" none =
        .error (.serverNotFound "io.github.acme/search")) ∧
    (∀ e, get_server [entryAlpha, entryRelease] "io.github.acme/search" (some "1.0.0") = .ok e →
      e.version = some "1.0.0" ∧ e ∈ [entryAlpha, entryRelease] ∧
      e.name = some "io.github.acme/search") ∧
    ((∃ e ∈ [entryAlpha, entryRelease], e.name = some "io.github.acme/search" ∧
        e.version = some "1.0.0") →
      ∃ r, get_server [entryAlpha, entryRelease] "io.github.acme/search" (some "1.0.0") =
        .ok r ∧ r.version = some "1.0.0") ∧
    ((∃ e ∈ [entryAlpha, entryRelease], e.name = some "io.github.acme/search") →
      (∀ e ∈ [entryAlpha, entryRelease], e.name = some "io.github.acme/search" →
        e.version ≠ some "1.0.0") →
      get_server [entryAlpha, entryRelease] "io.github.acme/search" (some "1.0.0") =
        .error (.versionNotFound "io.github.acme/search" "1.0.0")) ∧
    ((∃ e ∈ [entryAlpha, entryRelease], e.name = some "io.github.acme/search") →
      ∃ r, get_server [entryAlpha, entryRelease] "io.github.acme/search" none = .ok r ∧
        r ∈ [entryAlpha, entryRelease] ∧ r.name = some "io.github.acme/search" ∧
        ∀ e2 ∈ [entryAlpha, entryRelease], e2.name = some "io.github.acme/search" →
          keyLt (entryKey r) (entryKey e2) = false) :=
  c4_version_selection [entryAlpha, entryRelease] "io.github.acme/search" "1.0.0"
    (by decide) (by decide)

/-- C1 counterexample: with the declared required `API_KEY` bound to the
literal placeholder `$\x7bAPI_KEY\x7d`, `get_missing_required_vars` returns
`[]` — the placeholder is a non-empty (truthy) string, so this check does
NOT honor the placeholder convention, contradicting the claim that it
reports the variable. -/
theorem c1_counterexample :
    placeholderRuntimeConfig.original_config = some searchRegistryConfig ∧
    searchRegistryConfig.packages = some [npmSearchPackage] ∧
    npmSearchPackage.environmentVariables = some [apiKeyVar] ∧
    apiKeyVar.isRequired = true ∧
    dGet placeholderRuntimeConfig.env "API_KEY" = some "$\x7bAPI_KEY\x7d" ∧
    get_missing_required_vars placeholderRuntimeConfig = [] := by
  refine ⟨rfl, rfl, rfl, rfl, by decide, by decide⟩

/-- C1 (corrected): the placeholder convention lives in
`ConfigValidator.get_missing_vars`, which reports every env key bound to a
`$\x7bNAME\x7d`-shaped value; `get_missing_required_vars` instead treats any
non-empty value — placeholder included — as configured, reporting only
required variables whose value is absent or empty.  After
`update_server_config` replaces the env with concrete non-empty,
non-placeholder values, both checks return `[]`. -/
theorem c1_placeholder_detection (st : GlobalState) (n vn pv : String)
    (c : CPMRuntimeConfig) (env2 : List (String × String))
    (hs : dGet st.servers n = some c)
    (hv : dGet c.env vn = some pv)
    (hph : placeholderShaped pv = true)
    (h2 : ∀ kv ∈ env2, placeholderShaped kv.2 = false)
    (h3 : ∀ kv ∈ env2, kv.2 ≠ "") :
    vn ∈ get_missing_vars c ∧
    vn ∉ get_missing_required_vars c ∧
    (GlobalConfigManager.update_server_config st n env2).2 = true ∧
    (∃ c', dGet (GlobalConfigManager.update_server_config st n env2).1.servers n = some c' ∧
      c'.env = env2 ∧
      get_missing_vars c' = [] ∧
      (∀ oc pkg rest, c'.original_config = some oc → oc.packages = some (pkg :: rest) →
        (∀ ev ∈ pkg.environmentVariables.getD [], (dGet env2 ev.name).isSome = true) →
        get_missing_required_vars c' = [])) := by
  have hpvne : pv ≠ "" := by
    intro h0
    rw [h0] at hph
    exact Bool.noConfusion hph
  refine ⟨?_, ?_, ?_, ?_⟩
  · rw [mem_get_missing_vars]
    exact ⟨(vn, pv), dGet_mem c.env vn pv hv, rfl, hph⟩
  · intro hmem
    have hfalse := mem_get_missing_required_vars c vn hmem
    rw [hv] at hfalse
    simp [pyTruthyOptStr, hpvne] at hfalse
  · rw [GlobalConfigManager.update_server_config, if_neg (by simp [hs])]
  · refine ⟨{ c with env := env2 }, ?_, rfl, ?_, ?_⟩
    · rw [GlobalConfigManager.update_server_config, if_neg (by simp [hs])]
      exact dGet_dUpdateVal_self st.servers n _ c hs
    · exact get_missing_vars_nil _ (by simpa using h2)
    · intro oc pkg rest hoc hpkg hall
      refine get_missing_required_vars_nil _ oc pkg rest hoc hpkg ?_
      intro ev hev _
      obtain ⟨w, hw⟩ := Option.isSome_iff_exists.mp (hall ev hev)
      have hwm := dGet_mem env2 ev.name w hw
      have hwne := h3 (ev.name, w) hwm
      simp only at hwne
      simp [hw, pyTruthyOptStr, hwne]

/-- C1 witness: the `API_KEY` placeholder scenario with a concrete update. -/
theorem c1_witness :
    ("API_KEY" : String) ∈ get_missing_vars placeholderRuntimeConfig ∧
    ("API_KEY" : String) ∉ get_missing_required_vars placeholderRuntimeConfig ∧
    (GlobalConfigManager.update_server_config
      ⟨[("search", placeholderRuntimeConfig)], []⟩ "search" [("API_KEY", "secret123")]).2 = true ∧
    (∃ c', dGet (GlobalConfigManager.update_server_config
        ⟨[("search", placeholderRuntimeConfig)], []⟩ "search"
        [("API_KEY", "secret123")]).1.servers "search" = some c' ∧
      c'.env = [("API_KEY", "secret123")] ∧
      get_missing_vars c' = [] ∧
      (∀ oc pkg rest, c'.original_config = some oc → oc.packages = some (pkg :: rest) →
        (∀ ev ∈ pkg.environmentVariables.getD [],
          (dGet [("API_KEY", "secret123")] ev.name).isSome = true) →
        get_missing_required_vars c' = [])) :=
  c1_placeholder_detection ⟨[("search", placeholderRuntimeConfig)], []⟩ "search"
    "API_KEY" "$\x7bAPI_KEY\x7d" placeholderRuntimeConfig [("API_KEY", "secret123")]
    (by decide) (by decide) (by decide) (by decide) (by decide)

/-- C2 counterexample: a corrupt global store document does NOT propagate an
error — `_load_config` catches the JSON parse error, logs it and leaves the
manager with empty servers and groups (and takes no backup either), so the
load completes as if the store were empty. -/
theorem c2_counterexample :
    GlobalConfigManager.load_config FileState.corrupt = .ok ⟨[], []⟩ := rfl

/-- C2 (corrected): only the local project manifest propagates corruption
(`load_manifest` raises `ValueError`); the global store load swallows the
parse error and continues with an empty structure without backing the file
up, while the JSON client config load backs the corrupt file up to `.bak`
and continues with an empty config. -/
theorem c2_corrupt_load_behavior :
    LocalConfigManager.load_manifest FileState.corrupt = .error "Invalid server.json" ∧
    LocalConfigManager.load_manifest (FileState.parsed sampleLocalManifest) =
      .ok sampleLocalManifest ∧
    GlobalConfigManager.load_config FileState.corrupt = .ok ⟨[], []⟩ ∧
    GlobalConfigManager.load_config (FileState.parsed sampleGlobalDoc) =
      .ok sampleGlobalDoc ∧
    JSONClientManager.load_config "mcpServers" FileState.corrupt =
      ([("mcpServers", Json.obj [])], true) ∧
    JSONClientManager.load_config "mcpServers" FileState.missing =
      ([("mcpServers", Json.obj [])], false) :=
  ⟨rfl, rfl, rfl, rfl, rfl, rfl⟩

/-- C3 counterexample: adding the installed server `mysql` to the nonexistent
group `db` on the global manager succeeds (returns `True`) and implicitly
creates the group, instead of surfacing a NotFound condition. -/
theorem c3_counterexample :
    (GlobalConfigManager.add_server_to_group c3State "mysql" "db" "t0").2 = true ∧
    dGet (GlobalConfigManager.add_server_to_group c3State "mysql" "db" "t0").1.groups "db" =
      some { name := "db", description := none, servers := [],
             created_at := "t0", updated_at := "t0" } ∧
    dGet (GlobalConfigManager.add_server_to_group c3State "mysql" "db" "t0").1.servers
      "mysql" = some { mysqlServer with groups := ["db"] } := by
  refine ⟨by decide, by decide, by decide⟩

/-- C3 (corrected): the local manager's `add_server_to_group` surfaces a
NotFound error when the group does not exist, but the global manager's
auto-creates the missing group and reports success. -/
theorem c3_group_membership_errors (st : GlobalState) (lst : LocalState)
    (sname gname now : String) (c : CPMRuntimeConfig)
    (hs : dGet st.servers sname = some c)
    (hg : dGet st.groups gname = none)
    (hlg : dGet lst.manifest.groups gname = none) :
    (GlobalConfigManager.add_server_to_group st sname gname now).2 = true ∧
    (dGet (GlobalConfigManager.add_server_to_group st sname gname now).1.groups
      gname).isSome = true ∧
    LocalConfigManager.add_server_to_group lst sname gname =
      .error ("Group not found: " ++ gname) := by
  refine ⟨?_, ?_, ?_⟩
  · rw [GlobalConfigManager.add_server_to_group, if_neg (by simp [hs])]
  · rw [GlobalConfigManager.add_server_to_group, if_neg (by simp [hs])]
    simp only [hg, Option.isNone_none, if_true]
    rw [GlobalConfigManager.create_group, if_neg (by simp [hg])]
    simp [dGet_dInsert_self]
  · rw [LocalConfigManager.add_server_to_group, hlg]

/-- C3 witness: the `mysql`/`db` scenario on both scopes. -/
theorem c3_witness :
    (GlobalConfigManager.add_server_to_group c3State "mysql" "db" "t0").2 = true ∧
    (dGet (GlobalConfigManager.add_server_to_group c3State "mysql" "db" "t0").1.groups
      "db").isSome = true ∧
    LocalConfigManager.add_server_to_group sampleLocalState "mysql" "db" =
      .error ("Group not found: " ++ "db") :=
  c3_group_membership_errors c3State sampleLocalState "mysql" "db" "t0" mysqlServer
    (by decide) (by decide) (by decide)

/-- C8: delete_group removes only group membership, never servers.  In the
global scope: after creating group `g`, tagging installed server `s` with
it, and deleting `g`, the delete reports success, the set of installed
server names is unchanged, `s`'s config is exactly what it was before the
scenario (in particular its groups list again omits `g`, so it is `[]` when
it was empty), and the group is gone.  In the local scope the same sequence
keeps the manifest dependencies and the server config files intact while
removing the group from the manifest and the tag from the member's file. -/
theorem c8_delete_group_frame (st : GlobalState) (lst : LocalState)
    (g s now ver : String) (c cl : CPMRuntimeConfig)
    (hs : dGet st.servers s = some c)
    (hg : dGet st.groups g = none)
    (hcg : g ∉ c.groups)
    (hlv : dGet lst.manifest.servers s = some ver)
    (hlg : dGet lst.manifest.groups g = none)
    (hlf : dGet lst.files s = some cl)
    (hclg : g ∉ cl.groups) :
    ((globalGroupScenario st s g now).2 = true ∧
     (globalGroupScenario st s g now).1.servers.map Prod.fst = st.servers.map Prod.fst ∧
     dGet (globalGroupScenario st s g now).1.servers s = some c ∧
     dGet (globalGroupScenario st s g now).1.groups g = none) ∧
    (∃ lst3, localGroupScenario lst s g = .ok lst3 ∧
      lst3.manifest.servers = lst.manifest.servers ∧
      lst3.files.map Prod.fst = lst.files.map Prod.fst ∧
      dGet lst3.files s = some cl ∧
      dGet lst3.manifest.groups g = none) := by
  have herase : ∀ l : List String, g ∉ l → (l ++ [g]).erase g = l := by
    intro l hl
    rw [List.erase_append_right _ hl, List.erase_cons_head, List.append_nil]
  have hst1 : (GlobalConfigManager.create_group st g none now).1 =
      ⟨st.servers, dInsert st.groups g ⟨g, none, [], now, now⟩⟩ := by
    rw [GlobalConfigManager.create_group, if_neg (by simp [hg])]
  have hst2 : globalGroupScenario st s g now =
      GlobalConfigManager.delete_group
        ⟨dUpdateVal st.servers s (fun sv => sv.add_group g),
         dInsert st.groups g ⟨g, none, [], now, now⟩⟩ g := by
    rw [globalGroupScenario, hst1, GlobalConfigManager.add_server_to_group,
      if_neg (by simp [hs])]
    simp [dGet_dInsert_self]
  have hdel : globalGroupScenario st s g now =
      (⟨(dUpdateVal st.servers s (fun sv => sv.add_group g)).map
          (fun kv => (kv.1, kv.2.remove_group g)),
        dErase (dInsert st.groups g ⟨g, none, [], now, now⟩) g⟩, true) := by
    rw [hst2, GlobalConfigManager.delete_group, if_neg (by simp [dGet_dInsert_self])]
  have eServers : (globalGroupScenario st s g now).1.servers =
      (dUpdateVal st.servers s (fun sv => sv.add_group g)).map
        (fun kv => (kv.1, kv.2.remove_group g)) := by
    rw [hdel]
  have eGroups : (globalGroupScenario st s g now).1.groups =
      dErase (dInsert st.groups g ⟨g, none, [], now, now⟩) g := by
    rw [hdel]
  refine ⟨⟨by rw [hdel], ?_, ?_, ?_⟩, ?_⟩
  · rw [eServers]
    exact (map_value_keys (dUpdateVal st.servers s (fun sv => sv.add_group g))
        (fun sv => sv.remove_group g)).trans
      (dUpdateVal_keys st.servers s (fun sv => sv.add_group g))
  · rw [eServers, dGet_map (dUpdateVal st.servers s (fun sv => sv.add_group g))
      (fun sv => sv.remove_group g) s,
      dGet_dUpdateVal_self st.servers s (fun sv => sv.add_group g) c hs]
    show some ((c.add_group g).remove_group g) = some c
    rw [add_remove_group c g hcg]
  · rw [eGroups, dInsert_of_dGet_none st.groups g _ hg,
      dErase_append_of_dGet_none st.groups g _ hg]
    exact hg
  · have hl1 : LocalConfigManager.create_group lst g =
        .ok ⟨{ lst.manifest with groups := dInsert lst.manifest.groups g [] }, lst.files⟩ := by
      rw [LocalConfigManager.create_group, if_neg (by simp [hlg])]
    have hl2 : LocalConfigManager.add_server_to_group
        ⟨{ lst.manifest with groups := dInsert lst.manifest.groups g [] }, lst.files⟩ s g =
        .ok ⟨{ lst.manifest with groups := dInsert (dInsert lst.manifest.groups g []) g [s] },
             dUpdateVal lst.files s (fun sv => { sv with groups := sv.groups ++ [g] })⟩ := by
      rw [LocalConfigManager.add_server_to_group]
      simp [dGet_dInsert_self, hlv, hlf, hclg]
    have hl3 : LocalConfigManager.delete_group
        ⟨{ lst.manifest with groups := dInsert (dInsert lst.manifest.groups g []) g [s] },
         dUpdateVal lst.files s (fun sv => { sv with groups := sv.groups ++ [g] })⟩ g =
        .ok ⟨{ lst.manifest with groups := dErase (dInsert lst.manifest.groups g [s]) g },
             dUpdateVal (dUpdateVal lst.files s
                 (fun sv => { sv with groups := sv.groups ++ [g] })) s
               (fun sv => { sv with groups := sv.groups.erase g })⟩ := by
      rw [LocalConfigManager.delete_group]
      have hgm : dGet (dInsert (dInsert lst.manifest.groups g []) g [s]) g = some [s] := by
        rw [dInsert_dInsert]
        exact dGet_dInsert_self lst.manifest.groups g [s]
      simp only [hgm]
      have hfile : dGet (dUpdateVal lst.files s
          (fun sv => { sv with groups := sv.groups ++ [g] })) s =
          some { cl with groups := cl.groups ++ [g] } :=
        dGet_dUpdateVal_self lst.files s _ cl hlf
      simp only [List.foldl_cons, List.foldl_nil, hfile, dInsert_dInsert,
        List.mem_append, List.mem_singleton, or_true, if_true]
    refine ⟨⟨{ lst.manifest with groups := dErase (dInsert lst.manifest.groups g [s]) g },
             dUpdateVal (dUpdateVal lst.files s
                 (fun sv => { sv with groups := sv.groups ++ [g] })) s
               (fun sv => { sv with groups := sv.groups.erase g })⟩, ?_, rfl, ?_, ?_, ?_⟩
    · simp only [localGroupScenario, hl1]
      show Except.bind (LocalConfigManager.add_server_to_group
          ⟨{ lst.manifest with groups := dInsert lst.manifest.groups g [] }, lst.files⟩ s g)
          (fun lst2 => LocalConfigManager.delete_group lst2 g) =
        Except.ok ⟨{ lst.manifest with groups := dErase (dInsert lst.manifest.groups g [s]) g },
             dUpdateVal (dUpdateVal lst.files s
                 (fun sv => { sv with groups := sv.groups ++ [g] })) s
               (fun sv => { sv with groups := sv.groups.erase g })⟩
      rw [hl2]
      exact hl3
    · exact (dUpdateVal_keys (dUpdateVal lst.files s
          (fun sv => { sv with groups := sv.groups ++ [g] })) s
          (fun sv => { sv with groups := sv.groups.erase g })).trans
        (dUpdateVal_keys lst.files s (fun sv => { sv with groups := sv.groups ++ [g] }))
    · show dGet (dUpdateVal (dUpdateVal lst.files s
          (fun sv => { sv with groups := sv.groups ++ [g] })) s
          (fun sv => { sv with groups := sv.groups.erase g })) s = some cl
      rw [dGet_dUpdateVal_self (dUpdateVal lst.files s
          (fun sv => { sv with groups := sv.groups ++ [g] })) s
          (fun sv => { sv with groups := sv.groups.erase g })
          { cl with groups := cl.groups ++ [g] }
          (dGet_dUpdateVal_self lst.files s
            (fun sv => { sv with groups := sv.groups ++ [g] }) cl hlf)]
      show some { cl with groups := (cl.groups ++ [g]).erase g } = some cl
      rw [herase cl.groups hclg]
    · show dGet (dErase (dInsert lst.manifest.groups g [s]) g) g = none
      rw [dInsert_of_dGet_none lst.manifest.groups g _ hlg,
        dErase_append_of_dGet_none lst.manifest.groups g _ hlg]
      exact hlg

/-- C8 witness: the `mysql`/`db` scenario on both scopes. -/
theorem c8_witness :
    ((globalGroupScenario c3State "mysql" "db" "t0").2 = true ∧
     (globalGroupScenario c3State "mysql" "db" "t0").1.servers.map Prod.fst =
       c3State.servers.map Prod.fst ∧
     dGet (globalGroupScenario c3State "mysql" "db" "t0").1.servers "mysql" =
       some mysqlServer ∧
     dGet (globalGroupScenario c3State "mysql" "db" "t0").1.groups "db" = none) ∧
    (∃ lst3, localGroupScenario sampleLocalState "mysql" "db" = .ok lst3 ∧
      lst3.manifest.servers = sampleLocalState.manifest.servers ∧
      lst3.files.map Prod.fst = sampleLocalState.files.map Prod.fst ∧
      dGet lst3.files "mysql" = some mysqlServer ∧
      dGet lst3.manifest.groups "db" = none) :=
  c8_delete_group_frame c3State sampleLocalState "db" "mysql" "t0" "1.0.0"
    mysqlServer mysqlServer (by decide) (by decide) (by decide) (by decide)
    (by decide) (by decide) (by decide)

/-- C9: serialization round-trips losslessly for group, manifest, runtime
config and lockfile entities (the runtime config and lockfile carry the
registry-name well-formedness every pydantic-constructed instance has), and
empty `env`/`args`/`groups` collections are emitted as empty containers
under their keys, never as null and never omitted. -/
theorem c9_serialization_roundtrip (gr : GroupMetadata) (m : ServerManifest)
    (c : CPMRuntimeConfig) (lf : ServerLockfile)
    (hc : c.wfNames = true) (hlf : lf.wfNames = true) :
    GroupMetadata.model_validate gr.model_dump = some gr ∧
    ServerManifest.model_validate m.model_dump = some m ∧
    CPMRuntimeConfig.model_validate c.model_dump = some c ∧
    ServerLockfile.model_validate lf.model_dump = some lf ∧
    (∃ kvs, c.model_dump = Json.obj kvs ∧
      (c.env = [] → jlookup "env" kvs = some (Json.obj [])) ∧
      (c.args = some [] → jlookup "args" kvs = some (Json.arr [])) ∧
      (c.groups = [] → jlookup "groups" kvs = some (Json.arr []))) := by
  refine ⟨GroupMetadata_rt gr, ServerManifest_rt m, CPMRuntimeConfig_rt c hc,
    ServerLockfile_rt lf hlf, ⟨_, rfl, ?_, ?_, ?_⟩⟩
  · intro he
    simp [jlookup, he, jOfPairs]
  · intro ha
    simp [jlookup, ha, jOfOpt, jOfList]
  · intro hg
    simp [jlookup, hg, jOfList]

/-- C9 witness: concrete group, manifest, runtime-config and lockfile
samples. -/
theorem c9_witness :
    GroupMetadata.model_validate sampleGroupMetadata.model_dump = some sampleGroupMetadata ∧
    ServerManifest.model_validate sampleServerManifest.model_dump = some sampleServerManifest ∧
    CPMRuntimeConfig.model_validate placeholderRuntimeConfig.model_dump =
      some placeholderRuntimeConfig ∧
    ServerLockfile.model_validate sampleLockfile.model_dump = some sampleLockfile ∧
    (∃ kvs, placeholderRuntimeConfig.model_dump = Json.obj kvs ∧
      (placeholderRuntimeConfig.env = [] → jlookup "env" kvs = some (Json.obj [])) ∧
      (placeholderRuntimeConfig.args = some [] → jlookup "args" kvs = some (Json.arr [])) ∧
      (placeholderRuntimeConfig.groups = [] → jlookup "groups" kvs = some (Json.arr []))) :=
  c9_serialization_roundtrip sampleGroupMetadata sampleServerManifest
    placeholderRuntimeConfig sampleLockfile (by decide) (by decide)
